import Mathlib

/-!
Verification of the convention-driven formatting and line-sorting core of the
web-align-tool repository, as a shallow embedding in Lean 4.

The TypeScript sources are translated function by function:
strings become `List Char` internally, JavaScript numbers become `ℚ`/`Int`/`Nat`
with the source's arithmetic made explicit, regular-expression tests and
first-match extractions are implemented as executable scanners with the same
match semantics as the source patterns, and the in-place, stable
`Array.prototype.sort` (ES2019) is modelled by Mathlib's stable `insertionSort`
together with an explicit post-state for the mutated receiver.
-/

/-! ## JavaScript primitives used by the sources -/

/-- Character class of the JavaScript regex `\d`. -/
def jsDigit (c : Char) : Bool := c.isDigit

/-- Character class of the JavaScript regex `\s` (ASCII part; the sources only
meet ASCII whitespace). -/
def jsWs (c : Char) : Bool :=
  c = ' ' || c = '\t' || c = '\n' || c = '\r' || c = '\x0b' || c = '\x0c'

/-- Character class of the JavaScript regex `\w` (ASCII). -/
def jsWord (c : Char) : Bool :=
  c.isAlpha || c.isDigit || c = '_'

/-- Does `l` start with the given literal characters? -/
def startsWithL : List Char → List Char → Bool
  | [], _ => true
  | _ :: _, [] => false
  | p :: ps, c :: cs => p = c && startsWithL ps cs

/-- Hex digit, case-insensitive, as in the sources' `[0-9a-f]` with the `i` flag. -/
def jsHexDigit (c : Char) : Bool :=
  c.isDigit || ('a' ≤ c && c ≤ 'f') || ('A' ≤ c && c ≤ 'F')

/-- Split on a separator character, JavaScript `split` semantics: the empty
string yields `[""]`, separators at the ends yield empty pieces. -/
def splitCharAux (sep : Char) : List Char → List Char → List String
  | [], acc => [String.mk acc.reverse]
  | c :: t, acc =>
    if c = sep then String.mk acc.reverse :: splitCharAux sep t []
    else splitCharAux sep t (c :: acc)

/-- `String.prototype.split('\n')`. -/
def jsSplitLines (s : String) : List String := splitCharAux '\n' s.data []

/-- `Array.prototype.join('\n')`. -/
def jsJoinLines (l : List String) : String := String.intercalate "\n" l

/-- `String.prototype.trim()` (the whitespace set restricted to the ASCII
whitespace the sources meet). -/
def jsTrim (s : String) : String :=
  String.mk ((s.data.dropWhile jsWs).reverse.dropWhile jsWs).reverse

/-- `String.prototype.startsWith`. -/
def jsStartsWith (s p : String) : Bool := startsWithL p.data s.data

/-- `String.prototype.endsWith`. -/
def jsEndsWith (s p : String) : Bool := startsWithL p.data.reverse s.data.reverse

/-- Code-unit (lexicographic) strict comparison of strings, the order of the
comparator-less `Array.prototype.sort` and of `localeCompare` on the ASCII
data the sources compare. -/
def strLtb : List Char → List Char → Bool
  | [], [] => false
  | [], _ :: _ => true
  | _ :: _, [] => false
  | a :: as, b :: bs => if a < b then true else if b < a then false else strLtb as bs

/-- The non-strict order induced by `strLtb`. -/
def strLe (a b : String) : Prop := strLtb b.data a.data = false

instance : DecidableRel strLe := fun a b =>
  inferInstanceAs (Decidable (strLtb b.data a.data = false))

/-- Length of the maximal prefix of `l` whose characters satisfy `p`. -/
def runLen (p : Char → Bool) (l : List Char) : Nat := (l.takeWhile p).length

/-- `∃` a position (suffix) of `l` at which the prefix test `m` succeeds:
the semantics of an unanchored JavaScript `RegExp.test`. -/
def scanAny (m : List Char → Bool) : List Char → Bool
  | [] => m []
  | c :: t => m (c :: t) || scanAny m t

/-- Consume exactly `n` characters satisfying `p`, returning the remainder. -/
def takeCount (p : Char → Bool) : Nat → List Char → Option (List Char)
  | 0, l => some l
  | _ + 1, [] => none
  | n + 1, c :: t => if p c then takeCount p n t else none

/-- Consume one expected character. -/
def expectChar (c : Char) : List Char → Option (List Char)
  | [] => none
  | d :: t => if d = c then some t else none

/-- Digits of a decimal `Nat` (JavaScript `parseInt` on an all-digit group). -/
def digitsToNat (l : List Char) : Nat :=
  l.foldl (fun acc c => acc * 10 + (c.toNat - '0'.toNat)) 0

/-- Value of `0.d₁d₂…` as a rational (used to model `parseFloat` exactly). -/
def fracToRat (l : List Char) : ℚ :=
  mkRat (digitsToNat l) (10 ^ l.length)

/-- Rational addition, subtraction and multiplication written through `mkRat`
(definitionally computable formulations of the field operations; see
`ratAdd_eq_add`, `ratSub_eq_sub` and `ratMul_eq_mul`). -/
def ratAdd (a b : ℚ) : ℚ := mkRat (a.num * b.den + b.num * a.den) (a.den * b.den)

def ratSub (a b : ℚ) : ℚ := mkRat (a.num * b.den - b.num * a.den) (a.den * b.den)

def ratMul (a b : ℚ) : ℚ := mkRat (a.num * b.num) (a.den * b.den)

/-- Multiplication by a (possibly negative) power of ten: `q * 10 ^ ex`. -/
def ratScale10 (q : ℚ) (ex : Int) : ℚ :=
  if 0 ≤ ex then ratMul q (mkRat (10 ^ ex.toNat) 1)
  else ratMul q (mkRat 1 (10 ^ (-ex).toNat))

/-- The comparator relation induced by a JavaScript numeric comparator (the
sources' comparators return JavaScript numbers, embedded as `ℚ`):
`a` may precede `b` iff `cmp a b ≤ 0`. -/
def cmpLe {α : Type} (cmp : α → α → ℚ) (a b : α) : Prop := cmp a b ≤ 0

instance {α : Type} (cmp : α → α → ℚ) : DecidableRel (cmpLe cmp) :=
  fun a b => inferInstanceAs (Decidable (cmp a b ≤ 0))

/-- ES2019 `Array.prototype.sort(cmp)` produces the stable reordering induced by
the comparator; `insertionSort` on `cmp a b ≤ 0` is exactly that stable sort. -/
def jsSort {α : Type} (cmp : α → α → ℚ) (l : List α) : List α :=
  l.insertionSort (cmpLe cmp)

/-- A call to the in-place `Array.prototype.sort`: the returned array and the
caller's array after the call (the receiver is mutated to the sorted order and
returned, so the two coincide). -/
structure SortCall (α : Type) where
  ret : List α
  post : List α

/-- `arr.sort(cmp)` in JavaScript: sorts the receiver in place and returns it. -/
def jsSortInPlace {α : Type} (cmp : α → α → ℚ) (l : List α) : SortCall α :=
  { ret := jsSort cmp l, post := jsSort cmp l }

/-- Model of `String.prototype.localeCompare(b)` with no options, restricted to
the ASCII strings the sources compare: lexicographic on code points, with the
sign normalised to `-1/0/1`. -/
def localeCompare (a b : String) : Int :=
  if a = b then 0 else if strLtb a.data b.data then -1 else 1

/-- Model of `a.localeCompare(b, undefined, {numeric: true, sensitivity: 'base'})`:
case-folded, with runs of digits compared by numeric value.  The fuel argument
(always instantiated with the total length, which suffices because every step
consumes at least one character) keeps the recursion structural. -/
def localeCompareNumericGo : Nat → List Char → List Char → Int
  | 0, _, _ => 0
  | _ + 1, [], [] => 0
  | _ + 1, [], _ :: _ => -1
  | _ + 1, _ :: _, [] => 1
  | fuel + 1, a :: as, b :: bs =>
    if jsDigit a ∧ jsDigit b then
      let na := digitsToNat ((a :: as).takeWhile jsDigit)
      let nb := digitsToNat ((b :: bs).takeWhile jsDigit)
      if na < nb then -1 else if nb < na then 1
      else localeCompareNumericGo fuel ((a :: as).dropWhile jsDigit)
        ((b :: bs).dropWhile jsDigit)
    else
      if a.toLower < b.toLower then -1 else if b.toLower < a.toLower then 1
      else localeCompareNumericGo fuel as bs

def localeCompareNumeric (a b : String) : Int :=
  localeCompareNumericGo (a.length + b.length + 1) a.data b.data

/-- JavaScript `parseFloat` restricted to inputs over `[0-9.-]` (the cleaned
strings the sources feed it): optional minus sign, then digits with at most one
decimal point; `none` models `NaN`. -/
def jsParseFloatClean (l : List Char) : Option ℚ :=
  let core : List Char → Option ℚ := fun m =>
    let ip := m.takeWhile jsDigit
    let rest := m.dropWhile jsDigit
    match rest with
    | '.' :: fr =>
      let fp := fr.takeWhile jsDigit
      if ip.length = 0 ∧ fp.length = 0 then none
      else some (ratAdd (digitsToNat ip : ℚ) (fracToRat fp))
    | _ => if ip.length = 0 then none else some (digitsToNat ip : ℚ)
  match l with
  | '-' :: m => (core m).map (fun q => -q)
  | m => core m

/-- Leftmost position at which the anchored matcher `m` succeeds: the semantics
of `String.prototype.match` for the sources' patterns (all of whose group
extractions are deterministic, digits being followed by non-digit literals). -/
def scanFirst {α : Type} (m : List Char → Option α) : List Char → Option α
  | [] => m []
  | c :: t =>
    match m (c :: t) with
    | some a => some a
    | none => scanFirst m t

/-- Model of `new Date(text)`, covering the ISO `YYYY-MM-DD` date subset the
sources' data actually uses; any other shape is an invalid date (`none`).
The result is milliseconds since the Unix epoch (UTC midnight). -/
def jsNewDate (text : String) : Option Int :=
  let l := text.data
  match takeCount jsDigit 4 l with
  | none => none
  | some r1 =>
    match expectChar '-' r1 with
    | none => none
    | some r2 =>
      match takeCount jsDigit 2 r2 with
      | none => none
      | some r3 =>
        match expectChar '-' r3 with
        | none => none
        | some r4 =>
          match takeCount jsDigit 2 r4 with
          | none => none
          | some r5 =>
            if r5 ≠ [] then none
            else
              let y : Int := digitsToNat (l.take 4)
              let m : Nat := digitsToNat (l.take 7 |>.drop 5)
              let d : Nat := digitsToNat (l.take 10 |>.drop 8)
              let daysInMonth : Nat :=
                if m = 2 then
                  if y % 4 = 0 ∧ (y % 100 ≠ 0 ∨ y % 400 = 0) then 29 else 28
                else if m = 4 ∨ m = 6 ∨ m = 9 ∨ m = 11 then 30 else 31
              if 1 ≤ m ∧ m ≤ 12 ∧ 1 ≤ d ∧ d ≤ daysInMonth then
                let y2 : Int := if m ≤ 2 then y - 1 else y
                let era : Int := (if 0 ≤ y2 then y2 else y2 - 399) / 400
                let yoe : Int := y2 - era * 400
                let doy : Int := (153 * ((m : Int) + (if m > 2 then -3 else 9)) + 2) / 5 + d - 1
                let doe : Int := yoe * 365 + yoe / 4 - yoe / 100 + doy
                some ((era * 146097 + doe - 719468) * 86400000)
              else none

namespace DataTypeSorter

/-- The `dataType` field of `DataTypeSortingOptions`. -/
inductive DataType
  | number | date | version | ip | url | email | uuid | hex | time | filesize
deriving DecidableEq, Repr

inductive SortOrder
  | asc | desc
deriving DecidableEq, Repr

structure DataTypeSortingOptions where
  dataType : DataType
  sortOrder : SortOrder
deriving DecidableEq, Repr

/-- `options.sortOrder === 'desc' ? -result : result`. -/
def applyOrder (o : SortOrder) (r : ℚ) : ℚ :=
  match o with
  | .asc => r
  | .desc => -r

/-! ### Detection patterns of `detectDataType`, one anchored matcher per regex -/

/-- Anchored test of `/[0-9a-f]{8}-[0-9a-f]{4}-[0-9a-f]{4}-[0-9a-f]{4}-[0-9a-f]{12}/i`. -/
def uuidAt (l : List Char) : Bool :=
  (do
    let r ← takeCount jsHexDigit 8 l
    let r ← expectChar '-' r
    let r ← takeCount jsHexDigit 4 r
    let r ← expectChar '-' r
    let r ← takeCount jsHexDigit 4 r
    let r ← expectChar '-' r
    let r ← takeCount jsHexDigit 4 r
    let r ← expectChar '-' r
    let _ ← takeCount jsHexDigit 12 r
    pure ()).isSome

/-- One `\d{1,3}\.` octet: the digit run must have length 1–3 (a longer run
leaves a digit, not a dot, after any 1–3 digit prefix, so the regex backtracks
and fails at this position). -/
def octetDotAt (l : List Char) : Option (List Char) :=
  let r := runLen jsDigit l
  if 1 ≤ r ∧ r ≤ 3 then expectChar '.' (l.drop r) else none

/-- Anchored test of `/\d{1,3}\.\d{1,3}\.\d{1,3}\.\d{1,3}/`. -/
def ipAt (l : List Char) : Bool :=
  (do
    let r1 ← octetDotAt l
    let r2 ← octetDotAt r1
    let r3 ← octetDotAt r2
    if 1 ≤ runLen jsDigit r3 then pure () else none).isSome

/-- The regex class `[^@\s]`. -/
def nonAtWs (c : Char) : Bool := !(c = '@') && !(jsWs c)

/-- Anchored test of `/[^@\s]+@[^@\s]+\.[^@\s]+/`: a nonempty `[^@\s]` run, an
`@`, then a dot strictly inside the following `[^@\s]` run. -/
def emailAt (l : List Char) : Bool :=
  let r := runLen nonAtWs l
  if r = 0 then false
  else
    match l.drop r with
    | '@' :: rest =>
      let dom := rest.takeWhile nonAtWs
      ((dom.drop 1).dropLast).contains '.'
    | _ => false

/-- Anchored test of `/https?:\/\//`. -/
def urlAt (l : List Char) : Bool :=
  startsWithL "http://".data l || startsWithL "https://".data l

/-- One `\d+\.` component (run must be maximal: shorter prefixes leave a digit
where the dot is required). -/
def numDotAt (l : List Char) : Option (List Char) :=
  let r := runLen jsDigit l
  if 1 ≤ r then expectChar '.' (l.drop r) else none

/-- Anchored test of `/\d+\.\d+\.\d+/`. -/
def versionAt (l : List Char) : Bool :=
  (do
    let r1 ← numDotAt l
    let r2 ← numDotAt r1
    if 1 ≤ runLen jsDigit r2 then pure () else none).isSome

/-- Anchored test of `/#[0-9a-f]{3,8}/i`. -/
def hashHexAt (l : List Char) : Bool :=
  match l with
  | '#' :: rest => 3 ≤ runLen jsHexDigit rest
  | _ => false

/-- Anchored test of `/0x[0-9a-f]+/i`. -/
def zeroXHexAt (l : List Char) : Bool :=
  match l with
  | '0' :: x :: rest => (x = 'x' || x = 'X') && 1 ≤ runLen jsHexDigit rest
  | _ => false

/-- Anchored test of `/\d{1,2}:\d{2}(:\d{2})?/` (the optional seconds group is
irrelevant to the test). -/
def timeAt (l : List Char) : Bool :=
  let r := runLen jsDigit l
  if 1 ≤ r ∧ r ≤ 2 then
    match l.drop r with
    | ':' :: rest => 2 ≤ runLen jsDigit rest
    | _ => false
  else false

/-- The unit alternation `(B|KB|MB|GB|TB|PB)` with the `i` flag, tried at the
head of `l`; returns the 1024-exponent of the matched unit. -/
def unitAt (l : List Char) : Option Nat :=
  match l with
  | [] => none
  | c :: rest =>
    if c = 'B' ∨ c = 'b' then some 0
    else
      match rest with
      | d :: _ =>
        if d = 'B' ∨ d = 'b' then
          if c = 'K' ∨ c = 'k' then some 1
          else if c = 'M' ∨ c = 'm' then some 2
          else if c = 'G' ∨ c = 'g' then some 3
          else if c = 'T' ∨ c = 't' then some 4
          else if c = 'P' ∨ c = 'p' then some 5
          else none
        else none
      | [] => none

/-- Anchored match of `/(\d+(?:\.\d+)?)\s*(B|KB|MB|GB|TB|PB)/i`, returning the
numeric group as an exact rational and the unit's 1024-exponent. -/
def fileSizeMatchAt (l : List Char) : Option (ℚ × Nat) :=
  let r := runLen jsDigit l
  if r = 0 then none
  else
    let ip := l.takeWhile jsDigit
    let rest := l.drop r
    let fracAndRest : List Char × List Char :=
      match rest with
      | '.' :: fr =>
        if 1 ≤ runLen jsDigit fr then (fr.takeWhile jsDigit, fr.drop (runLen jsDigit fr))
        else ([], rest)
      | _ => ([], rest)
    let rest3 := fracAndRest.2.drop (runLen jsWs fracAndRest.2)
    match unitAt rest3 with
    | some k => some (ratAdd (digitsToNat ip : ℚ) (fracToRat fracAndRest.1), k)
    | none => none

/-- Anchored test of the file-size pattern. -/
def filesizeAt (l : List Char) : Bool := (fileSizeMatchAt l).isSome

/-- Anchored test of `/\d{4}-\d{2}-\d{2}/`. -/
def dateIsoAt (l : List Char) : Bool :=
  (do
    let r ← takeCount jsDigit 4 l
    let r ← expectChar '-' r
    let r ← takeCount jsDigit 2 r
    let r ← expectChar '-' r
    let _ ← takeCount jsDigit 2 r
    pure ()).isSome

/-- Anchored test of `/\d{2}\/\d{2}\/\d{4}/`. -/
def dateSlashAt (l : List Char) : Bool :=
  (do
    let r ← takeCount jsDigit 2 l
    let r ← expectChar '/' r
    let r ← takeCount jsDigit 2 r
    let r ← expectChar '/' r
    let _ ← takeCount jsDigit 4 r
    pure ()).isSome

/-- Anchored test of `/\w+\s+\d{1,2},?\s+\d{4}/` (`Month DD, YYYY`). -/
def dateMonthAt (l : List Char) : Bool :=
  let w := runLen jsWord l
  if w = 0 then false
  else
    let r1 := l.drop w
    let s1 := runLen jsWs r1
    if s1 = 0 then false
    else
      let r2 := r1.drop s1
      let d := runLen jsDigit r2
      if d = 0 then false
      else
        let r3 := r2.drop (min 2 d)
        let r4 := match r3 with
          | ',' :: t => t
          | t => t
        let s2 := runLen jsWs r4
        if s2 = 0 then false else 4 ≤ runLen jsDigit (r4.drop s2)

/-- Anchored full-string test of `/^-?\d+\.?\d*$/` (applied to the trimmed text). -/
def numberFull (l : List Char) : Bool :=
  let m := match l with
    | '-' :: t => t
    | t => t
  let r := runLen jsDigit m
  if r = 0 then false
  else
    match m.drop r with
    | [] => true
    | '.' :: fr => fr.all jsDigit
    | _ => false

/-! ### The unanchored tests, in the source's order -/

def uuidTest (text : String) : Bool := scanAny uuidAt text.data
def ipTest (text : String) : Bool := scanAny ipAt text.data
def emailTest (text : String) : Bool := scanAny emailAt text.data
def urlTest (text : String) : Bool := scanAny urlAt text.data
def versionTest (text : String) : Bool := scanAny versionAt text.data
def hexTest (text : String) : Bool :=
  scanAny hashHexAt text.data || scanAny zeroXHexAt text.data
def timeTest (text : String) : Bool := scanAny timeAt text.data
def filesizeTest (text : String) : Bool := scanAny filesizeAt text.data
def dateTest (text : String) : Bool :=
  scanAny dateIsoAt text.data || scanAny dateSlashAt text.data ||
    scanAny dateMonthAt text.data
def numberTest (text : String) : Bool := numberFull (jsTrim text).data

/-- `DataTypeSorter.detectDataType`: the source's if-chain, in source order. -/
def detectDataType (text : String) : Option DataType :=
  if uuidTest text then some .uuid
  else if ipTest text then some .ip
  else if emailTest text then some .email
  else if urlTest text then some .url
  else if versionTest text then some .version
  else if hexTest text then some .hex
  else if timeTest text then some .time
  else if filesizeTest text then some .filesize
  else if dateTest text then some .date
  else if numberTest text then some .number
  else none

/-- The spec's ordered, first-match-wins detection table
(UUID → IPv4 → email → URL → semantic version → hex → time-of-day → file size
→ date → plain number → none). -/
def detectionTable : List ((String → Bool) × DataType) :=
  [(uuidTest, .uuid), (ipTest, .ip), (emailTest, .email), (urlTest, .url),
   (versionTest, .version), (hexTest, .hex), (timeTest, .time),
   (filesizeTest, .filesize), (dateTest, .date), (numberTest, .number)]

/-- First-match-wins evaluation of the spec's table. -/
def detectDataTypeSpec (text : String) : Option DataType :=
  (detectionTable.find? (fun p => p.1 text)).map Prod.snd

/-! ### Parse and compare helpers of `DataTypeSorter` -/

/-- `parseNumber`: strip every character outside `[0-9.-]`, then `parseFloat`,
with `NaN ↦ 0`. -/
def parseNumber (text : String) : ℚ :=
  let clean := text.data.filter (fun c => jsDigit c || c = '.' || c = '-')
  match jsParseFloatClean clean with
  | some q => q
  | none => 0

/-- The five date patterns of `DataTypeSorter.parseDate` (only their tests
matter: a match routes the raw text to `new Date(text)`). -/
def dateKoreanAt (l : List Char) : Bool :=
  (do
    let r ← takeCount jsDigit 4 l
    let r ← expectChar '년' r
    let r := r.drop (runLen jsWs r)
    let d1 := runLen jsDigit r
    let r := r.drop (min 2 d1)
    if d1 = 0 then none else
    let r ← expectChar '월' r
    let r := r.drop (runLen jsWs r)
    let d2 := runLen jsDigit r
    let r := r.drop (min 2 d2)
    if d2 = 0 then none else
    let _ ← expectChar '일' r
    pure ()).isSome

/-- Anchored test of `/(\d{2})\.(\d{2})\.(\d{4})/`. -/
def dateDotAt (l : List Char) : Bool :=
  (do
    let r ← takeCount jsDigit 2 l
    let r ← expectChar '.' r
    let r ← takeCount jsDigit 2 r
    let r ← expectChar '.' r
    let _ ← takeCount jsDigit 4 r
    pure ()).isSome

/-- `DataTypeSorter.parseDate`: if any pattern matches, the result is
`new Date(text)` (possibly an invalid date, `none`); otherwise `new Date(text)`
with invalid dates replaced by `new Date(0)`. -/
def parseDate (text : String) : Option Int :=
  let anyPattern :=
    scanAny dateIsoAt text.data || scanAny dateSlashAt text.data ||
      scanAny dateDotAt text.data || scanAny dateKoreanAt text.data ||
      scanAny dateMonthAt text.data
  if anyPattern then jsNewDate text
  else some ((jsNewDate text).getD 0)

/-- `getTime()` difference for the date comparator; a `NaN` operand (invalid
date) makes `Array.prototype.sort` treat the pair as equal, modelled as 0. -/
def dateDiff (a b : Option Int) : ℚ :=
  match a, b with
  | some x, some y => ((x - y : Int) : ℚ)
  | _, _ => 0

/-- Anchored match of `/(\d+)\.(\d+)\.(\d+)(?:\.(\d+))?/`. -/
def versionMatchAt (l : List Char) : Option (Nat × Nat × Nat × Nat) :=
  let r1 := runLen jsDigit l
  if r1 = 0 then none
  else
    match expectChar '.' (l.drop r1) with
    | none => none
    | some t1 =>
      let r2 := runLen jsDigit t1
      if r2 = 0 then none
      else
        match expectChar '.' (t1.drop r2) with
        | none => none
        | some t2 =>
          let r3 := runLen jsDigit t2
          if r3 = 0 then none
          else
            let g4 : Nat :=
              match t2.drop r3 with
              | '.' :: fr =>
                if 1 ≤ runLen jsDigit fr then digitsToNat (fr.takeWhile jsDigit) else 0
              | _ => 0
            some (digitsToNat (l.takeWhile jsDigit),
                  digitsToNat (t1.takeWhile jsDigit),
                  digitsToNat (t2.takeWhile jsDigit), g4)

/-- `parseVersion`: first match's up-to-four integer components, defaulting 0. -/
def parseVersion (text : String) : List Nat :=
  match scanFirst versionMatchAt text.data with
  | some (a, b, c, d) => [a, b, c, d]
  | none => [0, 0, 0, 0]

/-- The loop of `compareVersions`: `max(a.length, b.length)` iterations,
absent components read as 0 (`a[i] || 0`). -/
def compareVersionsGo : Nat → List Nat → List Nat → Int
  | 0, _, _ => 0
  | n + 1, a, b =>
    let aVal := a.headD 0
    let bVal := b.headD 0
    if aVal ≠ bVal then (aVal : Int) - (bVal : Int)
    else compareVersionsGo n a.tail b.tail

/-- `compareVersions`: component-wise, first difference decides. -/
def compareVersions (a b : List Nat) : Int :=
  compareVersionsGo (max a.length b.length) a b

/-- One `(\d{1,3})\.` group of the IPv4 pattern, returning the octet value. -/
def ipOctetDotAt (l : List Char) : Option (Nat × List Char) :=
  let r := runLen jsDigit l
  if 1 ≤ r ∧ r ≤ 3 then
    (expectChar '.' (l.drop r)).map (fun rest => (digitsToNat (l.takeWhile jsDigit), rest))
  else none

/-- Anchored match of `/(\d{1,3})\.(\d{1,3})\.(\d{1,3})\.(\d{1,3})/`; the last
group takes (greedily) up to three digits of the final run. -/
def ipMatchAt (l : List Char) : Option (Nat × Nat × Nat × Nat) :=
  (do
    let (o1, r1) ← ipOctetDotAt l
    let (o2, r2) ← ipOctetDotAt r1
    let (o3, r3) ← ipOctetDotAt r2
    let r := runLen jsDigit r3
    if 1 ≤ r then
      pure (o1, o2, o3, digitsToNat ((r3.takeWhile jsDigit).take 3))
    else none)

/-- `parseIPAddress`: the four octets of the first match, else `0.0.0.0`. -/
def parseIPAddress (text : String) : List Nat :=
  match scanFirst ipMatchAt text.data with
  | some (a, b, c, d) => [a, b, c, d]
  | none => [0, 0, 0, 0]

/-- `compareIPAddresses`: octet-by-octet over the first four positions. -/
def compareIPAddressesGo : Nat → List Nat → List Nat → Int
  | 0, _, _ => 0
  | n + 1, a :: ta, b :: tb =>
    if a ≠ b then (a : Int) - (b : Int) else compareIPAddressesGo n ta tb
  | _ + 1, _, _ => 0

def compareIPAddresses (a b : List Nat) : Int := compareIPAddressesGo 4 a b

/-- JavaScript `parseFloat` on raw text: leading whitespace skipped, optional
sign, decimal digits with optional fraction and exponent (`Infinity` and hex
shapes are not modelled; the sources never feed them).  `none` models `NaN`. -/
def jsParseFloatText (l0 : List Char) : Option ℚ :=
  let l := l0.dropWhile jsWs
  let signAndRest : Bool × List Char :=
    match l with
    | '-' :: t => (true, t)
    | '+' :: t => (false, t)
    | t => (false, t)
  let m := signAndRest.2
  let ip := m.takeWhile jsDigit
  let rest := m.drop ip.length
  let fpAndRest : List Char × List Char :=
    match rest with
    | '.' :: fr => (fr.takeWhile jsDigit, fr.drop (runLen jsDigit fr))
    | _ => ([], rest)
  if ip.length = 0 ∧ fpAndRest.1.length = 0 then none
  else
    let base : ℚ := ratAdd (digitsToNat ip : ℚ) (fracToRat fpAndRest.1)
    let expVal : Int :=
      match fpAndRest.2 with
      | 'e' :: t => jsExpPart t
      | 'E' :: t => jsExpPart t
      | _ => 0
    let v := ratScale10 base expVal
    some (if signAndRest.1 then -v else v)
where
  /-- Exponent digits after `e`/`E` (0 when absent, matching the unconsumed
  exponent's absence from the parsed prefix). -/
  jsExpPart (t : List Char) : Int :=
    match t with
    | '-' :: d => if 1 ≤ runLen jsDigit d then -(digitsToNat (d.takeWhile jsDigit) : Int) else 0
    | '+' :: d => if 1 ≤ runLen jsDigit d then (digitsToNat (d.takeWhile jsDigit) : Int) else 0
    | d => if 1 ≤ runLen jsDigit d then (digitsToNat (d.takeWhile jsDigit) : Int) else 0

/-- `parseFileSize`: first match of the size pattern converted to bytes with
1024-based multipliers; otherwise `parseFloat(text) || 0`. -/
def parseFileSize (text : String) : ℚ :=
  match scanFirst fileSizeMatchAt text.data with
  | some (v, k) => ratMul v (mkRat (1024 ^ k) 1)
  | none =>
    match jsParseFloatText text.data with
    | some q => q
    | none => 0

/-- Anchored match of `/https?:\/\/[^\s]+/` (greedy tail). -/
def urlMatchAt (l : List Char) : Option (List Char) :=
  if urlAt l then
    some (l.takeWhile (fun c => !jsWs c))
  else none

/-- Model of the `URL` constructor on `scheme://…` inputs: hostname up to the
first `/ ? # :`, pathname from `/` up to `? #` (defaulting to `/`); other
inputs throw (`none`).  Covers the shapes the source can feed it. -/
def jsParseURLModel (l : List Char) : Option (String × String) :=
  let scheme := l.takeWhile (fun c => c.isAlpha)
  if scheme.length = 0 then none
  else
    match startsWithL "://".data (l.drop scheme.length), l.drop (scheme.length + 3) with
    | true, rest =>
      let host := rest.takeWhile (fun c => !(c = '/' || c = '?' || c = '#' || c = ':'))
      let after := rest.drop host.length
      let path :=
        match after with
        | '/' :: _ => after.takeWhile (fun c => !(c = '?' || c = '#'))
        | _ => ['/']
      some (String.mk host, String.mk path)
    | false, _ => none

/-- `parseURL`: the first `https?://…` match (or the whole text) through the
`URL` constructor; a throw yields `{domain: text, path: ''}`. -/
def parseURL (text : String) : String × String :=
  let candidate :=
    match scanFirst urlMatchAt text.data with
    | some u => u
    | none => text.data
  match jsParseURLModel candidate with
  | some hp => hp
  | none => (text, "")

/-- `compareURLs`: domain first, then path. -/
def compareURLs (a b : String × String) : Int :=
  let d := localeCompare a.1 b.1
  if d ≠ 0 then d else localeCompare a.2 b.2

/-- Anchored match of `/([^@\s]+)@([^@\s]+)/`. -/
def emailMatchAt (l : List Char) : Option (String × String) :=
  let r := runLen nonAtWs l
  if r = 0 then none
  else
    match l.drop r with
    | '@' :: rest =>
      let dom := rest.takeWhile nonAtWs
      if dom.length = 0 then none
      else some (String.mk (l.takeWhile nonAtWs), String.mk dom)
    | _ => none

/-- `parseEmail`: local and domain part of the first match, else
`{local: '', domain: text}`. -/
def parseEmail (text : String) : String × String :=
  match scanFirst emailMatchAt text.data with
  | some p => p
  | none => ("", text)

/-- `compareEmails`: domain first, then local part. -/
def compareEmails (a b : String × String) : Int :=
  let d := localeCompare a.2 b.2
  if d ≠ 0 then d else localeCompare a.1 b.1

/-- Anchored match of the UUID pattern returning the matched 36 characters. -/
def uuidMatchAt (l : List Char) : Option (List Char) :=
  if uuidAt l then some (l.take 36) else none

/-- `extractUUID`: the first UUID-shaped substring, else the whole text. -/
def extractUUID (text : String) : String :=
  match scanFirst uuidMatchAt text.data with
  | some u => String.mk u
  | none => text

/-- Value of a hex-digit group (JavaScript `parseInt(g, 16)`; the float
precision loss above 2⁵³ is not modelled). -/
def hexToNat (l : List Char) : Nat :=
  l.foldl (fun acc c =>
    acc * 16 +
      (if c.isDigit then c.toNat - '0'.toNat
       else if 'a' ≤ c ∧ c ≤ 'f' then c.toNat - 'a'.toNat + 10
       else c.toNat - 'A'.toNat + 10)) 0

/-- Anchored match of `/#?([0-9a-f]+)/i`, returning the hex group. -/
def hexMatchAt (l : List Char) : Option (List Char) :=
  match l with
  | '#' :: rest =>
    if 1 ≤ runLen jsHexDigit rest then some (rest.takeWhile jsHexDigit)
    else if jsHexDigit '#' then none else none
  | rest =>
    if 1 ≤ runLen jsHexDigit rest then some (rest.takeWhile jsHexDigit) else none

/-- `parseHex`: numeric value of the first hex group, else 0. -/
def parseHex (text : String) : Nat :=
  match scanFirst hexMatchAt text.data with
  | some g => hexToNat g
  | none => 0

/-- Anchored match of `/(\d{1,2}):(\d{2})(?::(\d{2}))?/`, returning
`(hours, minutes, seconds)`. -/
def timeMatchAt (l : List Char) : Option (Nat × Nat × Nat) :=
  let r := runLen jsDigit l
  if 1 ≤ r ∧ r ≤ 2 then
    match l.drop r with
    | ':' :: rest =>
      if 2 ≤ runLen jsDigit rest then
        let h := digitsToNat (l.takeWhile jsDigit)
        let m := digitsToNat ((rest.takeWhile jsDigit).take 2)
        let afterM := rest.drop 2
        let s :=
          match afterM with
          | ':' :: r2 =>
            if 2 ≤ runLen jsDigit r2 then digitsToNat ((r2.takeWhile jsDigit).take 2) else 0
          | _ => 0
        some (h, m, s)
      else none
    | _ => none
  else none

/-- `parseTime`: seconds since midnight of the first time match, else 0. -/
def parseTime (text : String) : Nat :=
  match scanFirst timeMatchAt text.data with
  | some (h, m, s) => h * 3600 + m * 60 + s
  | none => 0

/-! ### The ten in-place sort functions and the dispatcher -/

def sortNumbers (lines : List String) (options : DataTypeSortingOptions) : SortCall String :=
  jsSortInPlace (fun a b =>
    applyOrder options.sortOrder (ratSub (parseNumber a) (parseNumber b))) lines

def sortDates (lines : List String) (options : DataTypeSortingOptions) : SortCall String :=
  jsSortInPlace (fun a b =>
    applyOrder options.sortOrder (dateDiff (parseDate a) (parseDate b))) lines

def sortVersions (lines : List String) (options : DataTypeSortingOptions) : SortCall String :=
  jsSortInPlace (fun a b =>
    applyOrder options.sortOrder ((compareVersions (parseVersion a) (parseVersion b) : Int) : ℚ)) lines

def sortIPAddresses (lines : List String) (options : DataTypeSortingOptions) : SortCall String :=
  jsSortInPlace (fun a b =>
    applyOrder options.sortOrder ((compareIPAddresses (parseIPAddress a) (parseIPAddress b) : Int) : ℚ)) lines

def sortURLs (lines : List String) (options : DataTypeSortingOptions) : SortCall String :=
  jsSortInPlace (fun a b =>
    applyOrder options.sortOrder ((compareURLs (parseURL a) (parseURL b) : Int) : ℚ)) lines

def sortEmails (lines : List String) (options : DataTypeSortingOptions) : SortCall String :=
  jsSortInPlace (fun a b =>
    applyOrder options.sortOrder ((compareEmails (parseEmail a) (parseEmail b) : Int) : ℚ)) lines

def sortUUIDs (lines : List String) (options : DataTypeSortingOptions) : SortCall String :=
  jsSortInPlace (fun a b =>
    applyOrder options.sortOrder ((localeCompare (extractUUID a) (extractUUID b) : Int) : ℚ)) lines

def sortHexValues (lines : List String) (options : DataTypeSortingOptions) : SortCall String :=
  jsSortInPlace (fun a b =>
    applyOrder options.sortOrder (ratSub (parseHex a : ℚ) (parseHex b : ℚ))) lines

def sortTimes (lines : List String) (options : DataTypeSortingOptions) : SortCall String :=
  jsSortInPlace (fun a b =>
    applyOrder options.sortOrder (ratSub (parseTime a : ℚ) (parseTime b : ℚ))) lines

def sortFileSizes (lines : List String) (options : DataTypeSortingOptions) : SortCall String :=
  jsSortInPlace (fun a b =>
    applyOrder options.sortOrder (ratSub (parseFileSize a) (parseFileSize b))) lines

/-- `sortByDataType`: dispatch on `options.dataType` (the default branch
returns the lines unchanged, and the receiver is untouched). -/
def sortByDataType (lines : List String) (options : DataTypeSortingOptions) : SortCall String :=
  match options.dataType with
  | .number => sortNumbers lines options
  | .date => sortDates lines options
  | .version => sortVersions lines options
  | .ip => sortIPAddresses lines options
  | .url => sortURLs lines options
  | .email => sortEmails lines options
  | .uuid => sortUUIDs lines options
  | .hex => sortHexValues lines options
  | .time => sortTimes lines options
  | .filesize => sortFileSizes lines options

end DataTypeSorter

/-! ## JSON values and `JSON.parse` -/

/-- JSON values (object member order is insertion order, as in the runtime). -/
inductive JsonVal
  | null
  | bool (b : Bool)
  | num (q : ℚ)
  | str (s : String)
  | arr (elems : List JsonVal)
  | obj (members : List (String × JsonVal))
deriving Repr

/-- JSON insignificant whitespace. -/
def jsonWsChar (c : Char) : Bool := c = ' ' || c = '\t' || c = '\n' || c = '\r'

/-- JSON string escapes. -/
def jsonEscChar (c : Char) : Option Char :=
  if c = '"' then some '"'
  else if c = '\\' then some '\\'
  else if c = '/' then some '/'
  else if c = 'b' then some '\x08'
  else if c = 'f' then some '\x0c'
  else if c = 'n' then some '\n'
  else if c = 'r' then some '\r'
  else if c = 't' then some '\t'
  else none

/-- Body of a JSON string after the opening quote. -/
def jsonStringBody : List Char → Option (List Char × List Char)
  | [] => none
  | '"' :: r => some ([], r)
  | '\\' :: e :: r =>
    if e = 'u' then
      match r with
      | a :: b :: c :: d :: r2 =>
        if jsHexDigit a && jsHexDigit b && jsHexDigit c && jsHexDigit d then
          (jsonStringBody r2).map (fun p => (Char.ofNat (DataTypeSorter.hexToNat [a, b, c, d]) :: p.1, p.2))
        else none
      | _ => none
    else
      match jsonEscChar e with
      | some c => (jsonStringBody r).map (fun p => (c :: p.1, p.2))
      | none => none
  | '\\' :: [] => none
  | c :: r =>
    if c.toNat < 32 then none
    else (jsonStringBody r).map (fun p => (c :: p.1, p.2))

/-- A strict JSON number: optional minus, no leading zeros, optional fraction
and exponent (a bare trailing dot or exponent marker is a syntax error). -/
def jsonNumberAt (l : List Char) : Option (ℚ × List Char) :=
  let signAndRest : Bool × List Char :=
    match l with
    | '-' :: t => (true, t)
    | t => (false, t)
  let m := signAndRest.2
  let ip := m.takeWhile jsDigit
  if ip.length = 0 then none
  else if 2 ≤ ip.length ∧ ip.headD '0' = '0' then none
  else
    let rest := m.drop ip.length
    let fracStep : Option (List Char × List Char) :=
      match rest with
      | '.' :: fr =>
        if 1 ≤ runLen jsDigit fr then some (fr.takeWhile jsDigit, fr.drop (runLen jsDigit fr))
        else none
      | _ => some ([], rest)
    match fracStep with
    | none => none
    | some (fp, rest2) =>
      let expStep : Option (Int × List Char) :=
        match rest2 with
        | 'e' :: t => jsonExpAt t
        | 'E' :: t => jsonExpAt t
        | t => some (0, t)
      match expStep with
      | none => none
      | some (ex, r2) =>
        let base : ℚ := ratAdd (digitsToNat ip : ℚ) (fracToRat fp)
        some (ratScale10 (if signAndRest.1 then -base else base) ex, r2)
where
  jsonExpAt (t : List Char) : Option (Int × List Char) :=
    let sgnRest : Bool × List Char :=
      match t with
      | '-' :: u => (true, u)
      | '+' :: u => (false, u)
      | u => (false, u)
    let ds := sgnRest.2.takeWhile jsDigit
    if ds.length = 0 then none
    else
      let v : Int := digitsToNat ds
      some (if sgnRest.1 then -v else v, sgnRest.2.drop ds.length)

/-- JavaScript object semantics for duplicate keys: a later member overwrites
the value in place, keeping the first occurrence's position. -/
def upsertMember (acc : List (String × JsonVal)) (kv : String × JsonVal) :
    List (String × JsonVal) :=
  if acc.any (fun e => e.1 = kv.1) then
    acc.map (fun e => if e.1 = kv.1 then (e.1, kv.2) else e)
  else acc ++ [kv]

def dedupeMembers (ms : List (String × JsonVal)) : List (String × JsonVal) :=
  ms.foldl upsertMember []

/-- Parsing mode of the fueled JSON parser. -/
inductive JMode | value | elems | membs

/-- Intermediate result of the fueled JSON parser. -/
inductive JOut
  | v (x : JsonVal)
  | vs (xs : List JsonVal)
  | ms (xs : List (String × JsonVal))

/-- Strict recursive-descent JSON parser; the fuel (instantiated with twice the
input length plus a constant, which suffices since consecutive recursive calls
consume input) keeps the recursion structural. -/
def jsonGo : Nat → JMode → List Char → Option (JOut × List Char)
  | 0, _, _ => none
  | fuel + 1, .value, l0 =>
    let l := l0.dropWhile jsonWsChar
    match l with
    | 'n' :: 'u' :: 'l' :: 'l' :: r => some (.v .null, r)
    | 't' :: 'r' :: 'u' :: 'e' :: r => some (.v (.bool true), r)
    | 'f' :: 'a' :: 'l' :: 's' :: 'e' :: r => some (.v (.bool false), r)
    | '"' :: r =>
      (jsonStringBody r).map (fun p => (.v (.str (String.mk p.1)), p.2))
    | '[' :: r =>
      let r1 := r.dropWhile jsonWsChar
      match r1 with
      | ']' :: r2 => some (.v (.arr []), r2)
      | _ =>
        match jsonGo fuel .elems r with
        | some (.vs es, r2) => some (.v (.arr es), r2)
        | _ => none
    | '{' :: r =>
      let r1 := r.dropWhile jsonWsChar
      match r1 with
      | '}' :: r2 => some (.v (.obj []), r2)
      | _ =>
        match jsonGo fuel .membs r with
        | some (.ms es, r2) => some (.v (.obj (dedupeMembers es)), r2)
        | _ => none
    | _ =>
      (jsonNumberAt l).map (fun p => (.v (.num p.1), p.2))
  | fuel + 1, .elems, l =>
    match jsonGo fuel .value l with
    | some (.v x, r) =>
      let r1 := r.dropWhile jsonWsChar
      match r1 with
      | ']' :: r2 => some (.vs [x], r2)
      | ',' :: r2 =>
        match jsonGo fuel .elems r2 with
        | some (.vs xs, r3) => some (.vs (x :: xs), r3)
        | _ => none
      | _ => none
    | _ => none
  | fuel + 1, .membs, l0 =>
    let l := l0.dropWhile jsonWsChar
    match l with
    | '"' :: r =>
      match jsonStringBody r with
      | some (k, r1) =>
        let r2 := r1.dropWhile jsonWsChar
        match r2 with
        | ':' :: r3 =>
          match jsonGo fuel .value r3 with
          | some (.v x, r4) =>
            let r5 := r4.dropWhile jsonWsChar
            match r5 with
            | '}' :: r6 => some (.ms [(String.mk k, x)], r6)
            | ',' :: r6 =>
              match jsonGo fuel .membs r6 with
              | some (.ms xs, r7) => some (.ms ((String.mk k, x) :: xs), r7)
              | _ => none
            | _ => none
          | _ => none
        | _ => none
      | none => none
    | _ => none

/-- `JSON.parse`: a strict parse of the whole text (`none` models the thrown
`SyntaxError`). -/
def jsonParseStrict (text : String) : Option JsonVal :=
  match jsonGo (2 * text.length + 4) .value text.data with
  | some (.v x, r) => if r.dropWhile jsonWsChar = [] then some x else none
  | _ => none

/-- Decimal rendering of a JavaScript number whose value is a finite decimal
(every numeric value the sources produce is one): the minimal-length decimal
expansion, as `Number.prototype.toString` prints it. -/
def jsNumToString (q : ℚ) : String :=
  let a := |q|
  let sign := if q < 0 then "-" else ""
  match (List.range 22).find? (fun k => (ratMul a (mkRat (10 ^ k) 1)).den = 1) with
  | some k =>
    if k = 0 then sign ++ toString a.num
    else
      let digits := toString (ratMul a (mkRat (10 ^ k) 1)).num
      let padded :=
        if digits.length ≤ k then
          String.mk (List.replicate (k + 1 - digits.length) '0') ++ digits
        else digits
      sign ++ String.mk (padded.data.take (padded.length - k)) ++ "." ++
        String.mk (padded.data.drop (padded.length - k))
  | none => sign ++ toString a.num ++ "/" ++ toString a.den

mutual

/-- `String(value)` and `Array.prototype.join(',')` conversions (`inJoin` is
true inside a join, where `null` prints as the empty string). -/
def jsValToStringIn : Bool → JsonVal → String
  | inJoin, .null => if inJoin then "" else "null"
  | _, .bool b => if b then "true" else "false"
  | _, .num q => jsNumToString q
  | _, .str s => s
  | _, .arr l => String.intercalate "," (jsValJoinList l)
  | _, .obj _ => "[object Object]"

def jsValJoinList : List JsonVal → List String
  | [] => []
  | h :: t => jsValToStringIn true h :: jsValJoinList t

end

def jsValToString (v : JsonVal) : String := jsValToStringIn false v

/-- A JSON string literal with the standard escapes. -/
def jsonEscapeString (s : String) : String :=
  "\"" ++ String.join (s.data.map (fun c =>
    if c = '"' then "\\\""
    else if c = '\\' then "\\\\"
    else if c = '\n' then "\\n"
    else if c = '\r' then "\\r"
    else if c = '\t' then "\\t"
    else if c = '\x08' then "\\b"
    else if c = '\x0c' then "\\f"
    else if c.toNat < 32 then
      "\\u00" ++ String.mk [(Nat.digitChar (c.toNat / 16)), (Nat.digitChar (c.toNat % 16))]
    else String.mk [c])) ++ "\""

mutual

/-- Compact `JSON.stringify` (no replacer, no indent). -/
def jsonStringify : JsonVal → String
  | .null => "null"
  | .bool b => if b then "true" else "false"
  | .num q => jsNumToString q
  | .str s => jsonEscapeString s
  | .arr l => "[" ++ String.intercalate "," (jsonStringifyList l) ++ "]"
  | .obj ms => "\x7b" ++ String.intercalate "," (jsonStringifyMembers ms) ++ "\x7d"

def jsonStringifyList : List JsonVal → List String
  | [] => []
  | h :: t => jsonStringify h :: jsonStringifyList t

def jsonStringifyMembers : List (String × JsonVal) → List String
  | [] => []
  | kv :: t => (jsonEscapeString kv.1 ++ ":" ++ jsonStringify kv.2) :: jsonStringifyMembers t

end

/-- JavaScript truthiness of a JSON value. -/
def jsFalsy : JsonVal → Bool
  | .null => true
  | .bool b => !b
  | .num q => if q = 0 then true else false
  | .str s => s.data.isEmpty
  | _ => false

namespace AdvancedSorter

inductive SortType
  | alphabetical | numerical | date | length | custom
deriving DecidableEq, Repr

inductive AutoDataType
  | auto | string | number | date | json | array | object
deriving DecidableEq, Repr

structure SortingOptions where
  sortType : SortType
  sortOrder : DataTypeSorter.SortOrder
  dataType : AutoDataType
  objectSortKey : Option String := none
  customPattern : Option String := none
  preserveComments : Bool := false
  sortByProperty : Option String := none
  removeEmptyLines : Bool := false

/-- A `ParsedLine.sortValue`: a JavaScript string/number/other value, or a
`Date` object (milliseconds since epoch). -/
inductive SortVal
  | jval (v : JsonVal)
  | date (ms : Int)

structure ParsedLine where
  original : String
  content : String
  isComment : Bool
  isEmptyLine : Bool
  parsedData : Option JsonVal
  sortValue : SortVal

/-- `AdvancedSorter.isCommentLine`: the fixed anchored comment-marker patterns. -/
def isCommentLine (line : String) : Bool :=
  let d := line.data.dropWhile jsWs
  startsWithL "//".data d || startsWithL "/*".data d || startsWithL "*".data d ||
    startsWithL "*/".data d || startsWithL "#".data d || startsWithL "<!--".data d ||
    startsWithL "-->".data d || startsWithL "/**".data d || startsWithL "*".data d

/-- Model of `new Function('return ' + cleanText)()` for data-literal inputs:
the quote-rewritten text read back as JSON (the source delegates this
permissive decode to the JavaScript evaluator). -/
def parseJavaScriptObject (text : String) : JsonVal :=
  let cleanText := String.mk (text.data.map (fun c => if c = '\'' then '"' else c))
  match jsonParseStrict cleanText with
  | some v => v
  | none => .str text

/-- `AdvancedSorter.parseJSON`: strict decode, then the permissive fallback. -/
def parseJSON (text : String) : JsonVal :=
  match jsonParseStrict text with
  | some v => v
  | none => parseJavaScriptObject text

/-- `AdvancedSorter.parseArray` (the catch branch is unreachable: `parseJSON`
returns rather than throws). -/
def parseArray (text : String) : List JsonVal :=
  match parseJSON text with
  | .arr l => l
  | _ => [.str text]

/-- `AdvancedSorter.parseObject`. -/
def parseObject (text : String) : JsonVal :=
  match parseJSON text with
  | .arr l => .arr l
  | .obj ms => .obj ms
  | _ => .obj [("value", .str text)]

/-- `AdvancedSorter.parseNumber`: strip `[^\d.-]`, `parseFloat`, `NaN ↦ 0`. -/
def parseNumber (text : String) : ℚ :=
  let clean := text.data.filter (fun c => jsDigit c || c = '.' || c = '-')
  match jsParseFloatClean clean with
  | some q => q
  | none => 0

/-- `AdvancedSorter.parseDate`: `new Date(text)`, epoch zero on an invalid date. -/
def parseDate (text : String) : Int := (jsNewDate text).getD 0

/-- Anchored test of `/^\d{1,2}\/\d{1,2}\/\d{2,4}/`. -/
def dateSlashLooseAt (l : List Char) : Bool :=
  let r1 := runLen jsDigit l
  if 1 ≤ r1 ∧ r1 ≤ 2 then
    match l.drop r1 with
    | '/' :: t1 =>
      let r2 := runLen jsDigit t1
      if 1 ≤ r2 ∧ r2 ≤ 2 then
        match t1.drop r2 with
        | '/' :: t2 => 2 ≤ runLen jsDigit t2
        | _ => false
      else false
    | _ => false
  else false

/-- Anchored test of `/^\w+ \d{1,2}, \d{4}/` (single literal spaces). -/
def dateMonthStrictAt (l : List Char) : Bool :=
  let w := runLen jsWord l
  if w = 0 then false
  else
    match l.drop w with
    | ' ' :: t1 =>
      let d := runLen jsDigit t1
      let afterDigits : Option (List Char) :=
        if 2 ≤ d ∧ (t1.drop 2).headD ' ' = ',' then some (t1.drop 3)
        else if 1 ≤ d ∧ (t1.drop 1).headD ' ' = ',' then some (t1.drop 2)
        else none
      match afterDigits with
      | some (' ' :: t2) => 4 ≤ runLen jsDigit t2
      | _ => false
    | _ => false

/-- `AdvancedSorter.isDateString`: one of the anchored date shapes, and
`Date.parse` succeeds. -/
def isDateString (text : String) : Bool :=
  (DataTypeSorter.dateIsoAt text.data || DataTypeSorter.dateSlashAt text.data ||
    dateSlashLooseAt text.data || dateMonthStrictAt text.data) &&
    (jsNewDate text).isSome

/-- Result of `AdvancedSorter.detectDataType` (`type` tag plus `data`). -/
inductive Detected
  | arrD (v : JsonVal)
  | objD (v : JsonVal)
  | numD (q : ℚ)
  | dateD (ms : Int)
  | strD (s : String)

/-- `AdvancedSorter.detectDataType`. -/
def detectDataType (text : String) : Detected :=
  if (jsStartsWith text "\x7b" && jsEndsWith text "\x7d") ||
      (jsStartsWith text "[" && jsEndsWith text "]") then
    match parseJSON text with
    | .arr l => .arrD (.arr l)
    | v => .objD v
  else if DataTypeSorter.numberFull (jsTrim text).data then .numD (parseNumber text)
  else if isDateString text then .dateD (parseDate text)
  else .strD text

/-- Property lookup in an object (the parser deduplicates keys). -/
def objLookup (k : String) : List (String × JsonVal) → Option JsonVal :=
  fun ms => (ms.find? (fun kv => kv.1 = k)).map Prod.snd

/-- `AdvancedSorter.extractSortValue`. -/
def extractSortValue (data : JsonVal) (options : SortingOptions) : JsonVal :=
  match data with
  | .null => .str ""
  | .arr l =>
    match options.sortType with
    | .length => .num l.length
    | .alphabetical => .str (String.intercalate "," (jsValJoinList l))
    | _ =>
      match l.head? with
      | some v => if jsFalsy v then .str "" else v
      | none => .str ""
  | .obj ms =>
    let firstKeyFallback : JsonVal :=
      match ms.head? with
      | some kv => kv.2
      | none => .str (jsonStringify (.obj ms))
    match options.objectSortKey with
    | some k =>
      if k ≠ "" then
        match objLookup k ms with
        | some v => v
        | none => firstKeyFallback
      else firstKeyFallback
    | none => firstKeyFallback
  | v => v

/-- `AdvancedSorter.parseLines`, for one line of the split input. -/
def parseOneLine (options : SortingOptions) (line : String) : ParsedLine :=
  let trimmed := jsTrim line
  let isComment := isCommentLine trimmed
  let isEmptyLine := trimmed.length = 0
  let pdSv : Option JsonVal × SortVal :=
    if ¬isComment ∧ ¬isEmptyLine then
      match options.dataType with
      | .json =>
        let p := parseJSON trimmed
        (some p, .jval (extractSortValue p options))
      | .array =>
        let p := JsonVal.arr (parseArray trimmed)
        (some p, .jval (extractSortValue p options))
      | .object =>
        let p := parseObject trimmed
        (some p, .jval (extractSortValue p options))
      | .number => (none, .jval (.num (parseNumber trimmed)))
      | .date => (none, .date (parseDate trimmed))
      | .auto =>
        match detectDataType trimmed with
        | .objD v => (some v, .jval (extractSortValue v options))
        | .dateD ms => (none, .date ms)
        | .arrD v => (none, .jval v)
        | .numD q => (none, .jval (.num q))
        | .strD s => (none, .jval (.str s))
      | .string => (none, .jval (.str trimmed))
    else (none, .jval (.str line))
  { original := line, content := trimmed, isComment := isComment,
    isEmptyLine := isEmptyLine, parsedData := pdSv.1, sortValue := pdSv.2 }

/-- `AdvancedSorter.parseLines`: split on newlines, map each line. -/
def parseLines (text : String) (options : SortingOptions) : List ParsedLine :=
  (jsSplitLines text).map (parseOneLine options)

/-- Placeholder model of `Date.prototype.toString` (no source comparison path
exercised by the tool reaches it with a meaningful value). -/
def dateToStringModel (ms : Int) : String := "[Date " ++ toString ms ++ "]"

/-- `String(value)` on a sort value. -/
def strOfSortVal : SortVal → String
  | .jval v => jsValToString v
  | .date ms => dateToStringModel ms

/-- Model of `new RegExp(pat).test(s)` for the literal (metacharacter-free)
custom patterns the tool is used with: substring containment, where the two
semantics coincide. -/
def customPatternTest (pat s : String) : Bool :=
  scanAny (startsWithL pat.data) s.data

/-- The comparator of `AdvancedSorter.sortLines`. -/
def lineCmp (options : SortingOptions) (a b : ParsedLine) : ℚ :=
  let valueA := a.sortValue
  let valueB := b.sortValue
  let comparison : ℚ :=
    match options.sortType with
    | .numerical =>
      let numOf : SortVal → ℚ := fun v =>
        match v with
        | .jval (.num q) => q
        | v => parseNumber (strOfSortVal v)
      ratSub (numOf valueA) (numOf valueB)
    | .date =>
      let dateOf : SortVal → Int := fun v =>
        match v with
        | .date ms => ms
        | v => parseDate (strOfSortVal v)
      ((dateOf valueA - dateOf valueB : Int) : ℚ)
    | .length =>
      (((strOfSortVal valueA).length : Int) - ((strOfSortVal valueB).length : Int) : Int)
    | .custom =>
      match options.customPattern with
      | some pat =>
        let regexA := customPatternTest pat (strOfSortVal valueA)
        let regexB := customPatternTest pat (strOfSortVal valueB)
        if regexA ∧ ¬regexB then -1
        else if ¬regexA ∧ regexB then 1
        else ((localeCompare (strOfSortVal valueA) (strOfSortVal valueB) : Int) : ℚ)
      | none => ((localeCompare (strOfSortVal valueA) (strOfSortVal valueB) : Int) : ℚ)
    | .alphabetical =>
      ((localeCompareNumeric (strOfSortVal valueA) (strOfSortVal valueB) : Int) : ℚ)
  DataTypeSorter.applyOrder options.sortOrder comparison

/-- The classification loop at the head of `AdvancedSorter.sortLines`: each
line is pushed onto the comments, empty-lines or content array (or dropped). -/
def classifyLines (options : SortingOptions) :
    List ParsedLine → List ParsedLine × List ParsedLine × List ParsedLine
  | [] => ([], [], [])
  | line :: rest =>
    let r := classifyLines options rest
    if line.isComment && options.preserveComments then
      (line :: r.1, r.2.1, r.2.2)
    else if line.isEmptyLine && !options.removeEmptyLines then
      (r.1, line :: r.2.1, r.2.2)
    else if !line.isComment && !line.isEmptyLine then
      (r.1, r.2.1, line :: r.2.2)
    else r

/-- `AdvancedSorter.sortLines`: classify, sort the content lines in place,
then emit comments, sorted content, and empty lines. -/
def sortLines (parsedLines : List ParsedLine) (options : SortingOptions) :
    List ParsedLine :=
  let c := classifyLines options parsedLines
  let contentSorted := jsSort (lineCmp options) c.2.2
  (if options.preserveComments then c.1 else []) ++ contentSorted ++
    (if ¬options.removeEmptyLines then c.2.1 else [])

/-- `AdvancedSorter.formatOutput`. -/
def formatOutput (sortedLines : List ParsedLine) (originalIndentation : Bool) : String :=
  jsJoinLines (sortedLines.map (fun line =>
    if originalIndentation then line.original else line.content))

end AdvancedSorter

/-- JavaScript's default (comparator-less) `Array.prototype.sort` on strings:
stable, by code-unit order. -/
def jsSortDefault (l : List String) : List String :=
  l.insertionSort strLe

/-- `String.prototype.includes`. -/
def strIncludes (needle hay : String) : Bool :=
  scanAny (fun l => startsWithL needle.data l) hay.data

namespace LanguageSpecificSorter

end LanguageSpecificSorter

/-! ## The formatter pipelines -/

/-- `FormattingResult` (the wall-clock `processingTime` field is not part of
the embedded state). -/
structure FormattingResult where
  formattedCode : String
  changedLines : Nat
  warnings : List String
  errors : List String

/-- `String.prototype.repeat` on a JavaScript number: a negative count throws
`RangeError: Invalid count value`. -/
def jsRepeat (s : String) (n : Int) : Except String String :=
  if n < 0 then .error "Invalid count value"
  else .ok (String.join (List.replicate n.toNat s))

/-- `repeat` with a loop-derived non-negative count (cannot throw). -/
def strRepeatN (s : String) (n : Nat) : String :=
  String.join (List.replicate n s)

inductive IndentationType | tab | space
deriving DecidableEq, Repr

inductive BraceStyle | kr | allman | gnu | horstmann
deriving DecidableEq, Repr

inductive QuoteStyle | single | double
deriving DecidableEq, Repr

/-- `code.replace(/\t/g, replacement)`. -/
def replaceTabs (replacement : String) (code : String) : String :=
  String.join (code.data.map (fun c =>
    if c = '\t' then replacement else String.mk [c]))

/-- `code.replace(/[ \t]+$/gm, '')`: strip spaces and tabs at each line end. -/
def trimLineTrailingWs (code : String) : String :=
  jsJoinLines ((jsSplitLines code).map (fun line =>
    String.mk (line.data.reverse.dropWhile (fun c => c = ' ' || c = '\t')).reverse))

/-- Index one past the last `'\n'` of a whitespace run (the run is known to
contain one). -/
def wsRunMatchLen (run : List Char) : Nat :=
  run.length - (run.reverse.takeWhile (fun c => c ≠ '\n')).length

/-- `code.replace(/\n\s*\n\s*\n/g, '\n\n')` in a single global pass: at the
leftmost newline whose whitespace run holds at least three newlines, the match
extends to the run's last newline and is replaced by two newlines; scanning
resumes after it. -/
def collapseBlankGo : Nat → List Char → List Char
  | 0, l => l
  | _ + 1, [] => []
  | fuel + 1, c :: t =>
    if c = '\n' then
      let run := (c :: t).takeWhile jsWs
      if 3 ≤ (run.filter (fun d => d = '\n')).length then
        '\n' :: '\n' :: collapseBlankGo fuel ((c :: t).drop (wsRunMatchLen run))
      else c :: collapseBlankGo fuel t
    else c :: collapseBlankGo fuel t

def collapseBlankLines (code : String) : String :=
  String.mk (collapseBlankGo (code.length + 1) code.data)

/-- `code.replace(/\n+$/, '')`. -/
def stripTrailingNewlines (code : String) : String :=
  String.mk (code.data.reverse.dropWhile (fun c => c = '\n')).reverse

/-- The loop of `countChangedLines`: `max(a.length, b.length)` iterations,
missing lines read as `''` (`lines[i] || ''`). -/
def countChangedLinesGo : Nat → List String → List String → Nat
  | 0, _, _ => 0
  | n + 1, a, b =>
    (if a.headD "" ≠ b.headD "" then 1 else 0) + countChangedLinesGo n a.tail b.tail

/-- `countChangedLines`: position-wise comparison of the line arrays. -/
def countChangedLines (a b : List String) : Nat :=
  countChangedLinesGo (max a.length b.length) a b

namespace JavaFormatter

structure JavaConvention where
  indentationType : IndentationType
  indentSize : Int
  maxLineLength : Int
  insertFinalNewline : Bool
  trimTrailingWhitespace : Bool
  braceStyle : BraceStyle
  organizeImports : Bool
  separateStaticImports : Bool
  separateImportGroups : Bool
  blankLinesBetweenMethods : Nat
  blankLinesBetweenClasses : Nat
  blankLineAfterAnnotations : Bool
  spaceAroundOperators : Bool
  spaceBeforeMethodParens : Bool
  spaceBeforeControlParens : Bool

/-- `JavaFormatter.normalizeWhitespace` (the space indent string is built with
`repeat`, which throws on a negative `indentSize`). -/
def normalizeWhitespace (conv : JavaConvention) (code : String) :
    Except String String := do
  let code ←
    if conv.indentationType = .space then
      (jsRepeat " " conv.indentSize).map (fun sp => replaceTabs sp code)
    else pure code
  let code := if conv.trimTrailingWhitespace then trimLineTrailingWs code else code
  pure (collapseBlankLines code)

/-- The classification loop of `organizeImports`: returns
`(importLines, staticImportLines, nonImportLines)`. -/
def oiClassify : List String → Bool → List String × List String × List String
  | [], _ => ([], [], [])
  | line :: rest, inImportSection =>
    let t := jsTrim line
    if jsStartsWith t "import static " then
      let r := oiClassify rest inImportSection
      (r.1, t :: r.2.1, r.2.2)
    else if jsStartsWith t "import " then
      let r := oiClassify rest inImportSection
      (t :: r.1, r.2.1, r.2.2)
    else if jsStartsWith t "package " || jsStartsWith t "//" || jsStartsWith t "/*" then
      let r := oiClassify rest inImportSection
      (r.1, r.2.1, line :: r.2.2)
    else if t = "" then
      let r := oiClassify rest inImportSection
      if ¬inImportSection then (r.1, r.2.1, line :: r.2.2) else r
    else
      let r := oiClassify rest false
      (r.1, r.2.1, line :: r.2.2)

/-- Emit the import groups with a blank line between consecutive groups. -/
def emitGroups : List (List String) → List String
  | [] => []
  | [g] => g
  | g :: rest => g ++ "" :: emitGroups rest

/-- `JavaFormatter.organizeImports`. -/
def organizeImports (conv : JavaConvention) (code : String) : String :=
  let c := oiClassify (jsSplitLines code) true
  let importLines := jsSortDefault c.1
  let staticImportLines := jsSortDefault c.2.1
  let nonImportLines := c.2.2
  let packageIndex : Option Nat :=
    nonImportLines.findIdx? (fun line => jsStartsWith (jsTrim line) "package ")
  let headPart : List String :=
    match packageIndex with
    | some idx => nonImportLines.take (idx + 1) ++ [""]
    | none => []
  let staticPart : List String :=
    if staticImportLines ≠ [] then
      staticImportLines ++
        (if conv.separateStaticImports ∧ importLines ≠ [] then [""] else [])
    else []
  let importPart : List String :=
    if importLines ≠ [] then
      let javaImports := importLines.filter (fun imp => strIncludes "java." imp)
      let javaxImports := importLines.filter (fun imp => strIncludes "javax." imp)
      let orgImports := importLines.filter (fun imp => strIncludes "org." imp)
      let comImports := importLines.filter (fun imp => strIncludes "com." imp)
      let otherImports := importLines.filter (fun imp =>
        ¬strIncludes "java." imp ∧ ¬strIncludes "javax." imp ∧
          ¬strIncludes "org." imp ∧ ¬strIncludes "com." imp)
      let importGroups :=
        [javaImports, javaxImports, orgImports, comImports, otherImports].filter
          (fun g => g ≠ [])
      if conv.separateImportGroups then emitGroups importGroups
      else importLines
    else []
  let sepPart : List String :=
    if importLines ≠ [] ∨ staticImportLines ≠ [] then [""] else []
  let restIndex :=
    match packageIndex with
    | some idx => idx + 1
    | none => 0
  jsJoinLines (headPart ++ staticPart ++ importPart ++ sepPart ++
    nonImportLines.drop restIndex)

inductive LineKind
  | classDecl | methodDecl | fieldDecl | other | blank
deriving DecidableEq, Repr

/-- Count occurrences of a character (`(line.match(/{/g) || []).length`). -/
def countChar (c : Char) (s : String) : Nat :=
  (s.data.filter (fun d => d = c)).length

/-- Remainders after an optional keyword from `kws` followed by `\s*`
(remainders are kept whitespace-stripped, which the adjacent `\s*` groups of
the pattern make equivalent). -/
def optAltKw (kws : List String) (rs : List (List Char)) : List (List Char) :=
  rs.flatMap (fun r =>
    r :: kws.filterMap (fun kw =>
      if startsWithL kw.data r then some ((r.drop kw.length).dropWhile jsWs)
      else none))

/-- The core `\w+\s+\w+\s*\([^)]*\)` of the method pattern. -/
def methodCore (r : List Char) : Bool :=
  let w1 := runLen jsWord r
  if w1 = 0 then false
  else
    let r1 := r.drop w1
    let s1 := runLen jsWs r1
    if s1 = 0 then false
    else
      let r2 := r1.drop s1
      let w2 := runLen jsWord r2
      if w2 = 0 then false
      else
        let r3 := (r2.drop w2).dropWhile jsWs
        match r3 with
        | '(' :: rr => ((rr.drop (runLen (fun c => c ≠ ')') rr)).headD ' ') = ')'
        | _ => false

/-- The core `\w+\s+\w+\s*(=.*)?;?$` of the field pattern. -/
def fieldCore (r : List Char) : Bool :=
  let w1 := runLen jsWord r
  if w1 = 0 then false
  else
    let r1 := r.drop w1
    let s1 := runLen jsWs r1
    if s1 = 0 then false
    else
      let r2 := r1.drop s1
      let w2 := runLen jsWord r2
      if w2 = 0 then false
      else
        match (r2.drop w2).dropWhile jsWs with
        | [] => true
        | [';'] => true
        | '=' :: _ => true
        | _ => false

/-- `isMethodDeclaration`: the anchored modifier-prefixed method pattern
(every choice of the optional modifier groups is tried). -/
def isMethodDeclaration (line : String) : Bool :=
  (optAltKw ["final"] (optAltKw ["static"]
    (optAltKw ["public", "private", "protected"]
      [line.data.dropWhile jsWs]))).any methodCore

/-- `isFieldDeclaration`. -/
def isFieldDeclaration (line : String) : Bool :=
  (optAltKw ["final"] (optAltKw ["static"]
    (optAltKw ["public", "private", "protected"]
      [line.data.dropWhile jsWs]))).any fieldCore

/-- `addBlankLines`: push `''` up to `count` times, but only while the last
pushed line is not already blank (the result list is kept reversed). -/
def addBlankLinesRev (resultRev : List String) : Nat → List String
  | 0 => resultRev
  | n + 1 =>
    addBlankLinesRev (if resultRev.headD " " ≠ "" then "" :: resultRev else resultRev) n

/-- The line-classification and blank-insertion loop of `formatClassStructure`
(the result is carried reversed so that the source's last-element checks are
head reads). -/
def fcsGo (conv : JavaConvention) :
    List String → LineKind → Int → List String → List String
  | [], _, _, resultRev => resultRev.reverse
  | line :: rest, previousLineType, braceDepth, resultRev =>
    let trimmedLine := jsTrim line
    let braceDepth := braceDepth + (countChar '{' line : Int) - (countChar '}' line : Int)
    let currentLineType : LineKind :=
      if trimmedLine = "" then .blank
      else if braceDepth ≤ 1 ∧ (strIncludes "class " trimmedLine ∨
          strIncludes "interface " trimmedLine ∨ strIncludes "enum " trimmedLine) then
        .classDecl
      else if braceDepth ≤ 2 ∧ isMethodDeclaration trimmedLine then .methodDecl
      else if braceDepth ≤ 2 ∧ isFieldDeclaration trimmedLine then .fieldDecl
      else .other
    let resultRev :=
      if currentLineType ≠ .blank then
        if previousLineType = .classDecl ∧ currentLineType ≠ .classDecl ∧
            0 < conv.blankLinesBetweenClasses then
          addBlankLinesRev resultRev conv.blankLinesBetweenClasses
        else if previousLineType = .methodDecl ∧ currentLineType = .methodDecl ∧
            0 < conv.blankLinesBetweenMethods then
          addBlankLinesRev resultRev conv.blankLinesBetweenMethods
        else if previousLineType ≠ .blank ∧ currentLineType = .methodDecl ∧
            0 < conv.blankLinesBetweenMethods then
          addBlankLinesRev resultRev conv.blankLinesBetweenMethods
        else resultRev
      else resultRev
    if jsStartsWith trimmedLine "@" ∧ conv.blankLineAfterAnnotations then
      let resultRev := line :: resultRev
      let resultRev :=
        match rest.head? with
        | some nxt => if ¬jsStartsWith (jsTrim nxt) "@" then "" :: resultRev else resultRev
        | none => resultRev
      fcsGo conv rest currentLineType braceDepth resultRev
    else if currentLineType ≠ .blank ∨ resultRev.headD "≠" ≠ "" then
      fcsGo conv rest currentLineType braceDepth (line :: resultRev)
    else
      fcsGo conv rest currentLineType braceDepth resultRev

/-- `JavaFormatter.formatClassStructure`. -/
def formatClassStructure (conv : JavaConvention) (code : String) : String :=
  jsJoinLines (fcsGo conv (jsSplitLines code) .other 0 [])

/-- The keyword alternation of `/\b(if|for|while|switch)\s*\(/`: on success,
the matched keyword and the remainder after the consumed `(`. -/
def controlKwAt (l : List Char) : Option (String × List Char) :=
  (["if", "for", "while", "switch"].filterMap (fun kw =>
    if startsWithL kw.data l then
      let r := l.drop kw.length
      let s := runLen jsWs r
      match r.drop s with
      | '(' :: rest => some (kw, rest)
      | _ => none
    else none)).head?

/-- The global replace of `formatMethodBodies`, tracking the previous
character for the `\b` boundary. -/
def fmbGo (spaceFlag : Bool) : Nat → Option Char → List Char → List Char
  | 0, _, l => l
  | _ + 1, _, [] => []
  | fuel + 1, prev, c :: t =>
    let boundary :=
      match prev with
      | none => true
      | some p => !jsWord p
    match (if boundary then controlKwAt (c :: t) else none) with
    | some (kw, rest) =>
      (kw ++ (if spaceFlag then " (" else "(")).data ++ fmbGo spaceFlag fuel (some '(') rest
    | none => c :: fmbGo spaceFlag fuel (some c) t

/-- `JavaFormatter.formatMethodBodies`. -/
def formatMethodBodies (conv : JavaConvention) (code : String) : String :=
  String.mk (fmbGo conv.spaceBeforeControlParens (code.length + 1) none code.data)

/-- The indentation loop. -/
def aiGo (indentString : String) : List String → Nat → List String
  | [], _ => []
  | line :: rest, indentLevel =>
    let trimmedLine := jsTrim line
    if trimmedLine = "" then "" :: aiGo indentString rest indentLevel
    else
      let level1 := if jsStartsWith trimmedLine "\x7d" then indentLevel - 1 else indentLevel
      let out := strRepeatN indentString level1 ++ trimmedLine
      let level2 := if jsEndsWith trimmedLine "\x7b" then level1 + 1 else level1
      out :: aiGo indentString rest level2

/-- `JavaFormatter.applyIndentation` (the indent string again uses `repeat`). -/
def applyIndentation (conv : JavaConvention) (code : String) :
    Except String String := do
  let indentString ←
    if conv.indentationType = .tab then pure "\t"
    else jsRepeat " " conv.indentSize
  pure (jsJoinLines (aiGo indentString (jsSplitLines code) 0))

/-- `code.replace(/\n\s*{/g, ' {')`. -/
def krBraceGo : Nat → List Char → List Char
  | 0, l => l
  | _ + 1, [] => []
  | fuel + 1, c :: t =>
    if c = '\n' then
      let s := runLen jsWs t
      match t.drop s with
      | '{' :: rest => ' ' :: '{' :: krBraceGo fuel rest
      | _ => c :: krBraceGo fuel t
    else c :: krBraceGo fuel t

/-- `code.replace(/\s*{\s*/g, '\n{')`. -/
def allmanBraceGo : Nat → List Char → List Char
  | 0, l => l
  | _ + 1, [] => []
  | fuel + 1, c :: t =>
    let s := runLen jsWs (c :: t)
    match (c :: t).drop s with
    | '{' :: rest =>
      '\n' :: '{' :: allmanBraceGo fuel (rest.drop (runLen jsWs rest))
    | _ => c :: allmanBraceGo fuel t

/-- `JavaFormatter.applyBraceStyle` (`gnu`/`horstmann` fall through unchanged). -/
def applyBraceStyle (conv : JavaConvention) (code : String) : String :=
  match conv.braceStyle with
  | .kr => String.mk (krBraceGo (code.length + 1) code.data)
  | .allman => String.mk (allmanBraceGo (code.length + 1) code.data)
  | _ => code

/-- `[=!<>]`. -/
def opCh1 (c : Char) : Bool := c = '=' || c = '!' || c = '<' || c = '>'

/-- `[+\-*/]`. -/
def opCh2 (c : Char) : Bool := c = '+' || c = '-' || c = '*' || c = '/'

/-- `code.replace(/([^=!<>])([=!<>]=?)([^=])/g, '$1 $2 $3')`. -/
def spacing1Go : Nat → List Char → List Char
  | 0, l => l
  | _ + 1, [] => []
  | fuel + 1, a :: rest =>
    match rest with
    | b :: rest2 =>
      if ¬opCh1 a ∧ opCh1 b then
        match rest2 with
        | '=' :: c :: rest3 =>
          if c ≠ '=' then
            a :: ' ' :: b :: '=' :: ' ' :: c :: spacing1Go fuel rest3
          else a :: spacing1Go fuel rest
        | c :: rest3 =>
          if c ≠ '=' then a :: ' ' :: b :: ' ' :: c :: spacing1Go fuel rest3
          else a :: spacing1Go fuel rest
        | [] => a :: spacing1Go fuel rest
      else a :: spacing1Go fuel rest
    | [] => [a]

/-- `code.replace(/([^+\-*\/])([+\-*\/])([^=])/g, '$1 $2 $3')`. -/
def spacing2Go : Nat → List Char → List Char
  | 0, l => l
  | _ + 1, [] => []
  | fuel + 1, a :: rest =>
    match rest with
    | b :: c :: rest3 =>
      if ¬opCh2 a ∧ opCh2 b ∧ c ≠ '=' then
        a :: ' ' :: b :: ' ' :: c :: spacing2Go fuel rest3
      else a :: spacing2Go fuel rest
    | _ => a :: spacing2Go fuel (rest)

/-- `code.replace(/(\w+)\s+\(/g, '$1(')`. -/
def parenTightenGo : Nat → List Char → List Char
  | 0, l => l
  | _ + 1, [] => []
  | fuel + 1, c :: t =>
    if jsWord c then
      let w := runLen jsWord (c :: t)
      let s := runLen jsWs ((c :: t).drop w)
      if 1 ≤ s then
        match (c :: t).drop (w + s) with
        | '(' :: rest => ((c :: t).take w) ++ '(' :: parenTightenGo fuel rest
        | _ => c :: parenTightenGo fuel t
      else c :: parenTightenGo fuel t
    else c :: parenTightenGo fuel t

/-- `JavaFormatter.applySpacingRules`. -/
def applySpacingRules (conv : JavaConvention) (code : String) : String :=
  let code :=
    if conv.spaceAroundOperators then
      let code := String.mk (spacing1Go (code.length + 1) code.data)
      String.mk (spacing2Go (code.length + 1) code.data)
    else code
  if ¬conv.spaceBeforeMethodParens then
    String.mk (parenTightenGo (code.length + 1) code.data)
  else code

/-- `JavaFormatter.finalCleanup`: final-newline policy; the line-length check
only writes to the console and leaves the `warnings` array untouched. -/
def finalCleanup (conv : JavaConvention) (code : String) : String :=
  if conv.insertFinalNewline then
    if ¬jsEndsWith code "\n" then code ++ "\n" else code
  else stripTrailingNewlines code

/-- The lines exceeding `maxLineLength` (what the source merely `console.warn`s
about in `finalCleanup`, without touching the result's `warnings`). -/
def overlongLines (conv : JavaConvention) (code : String) : List String :=
  (jsSplitLines code).filter (fun line => (line.length : Int) > conv.maxLineLength)

/-- The staged pipeline of `JavaFormatter.format` (the body of its `try`). -/
def runPipeline (conv : JavaConvention) (code : String) : Except String String := do
  let f1 ← normalizeWhitespace conv code
  let f2 := if conv.organizeImports then organizeImports conv f1 else f1
  let f3 := formatClassStructure conv f2
  let f4 := formatMethodBodies conv f3
  let f5 ← applyIndentation conv f4
  let f6 := applyBraceStyle conv f5
  let f7 := applySpacingRules conv f6
  pure (finalCleanup conv f7)

/-- `JavaFormatter.format`: the staged pipeline inside `try`, with the `catch`
returning the original code and the error message. -/
def format (conv : JavaConvention) (code : String) : FormattingResult :=
  match runPipeline conv code with
  | .ok formattedCode =>
    { formattedCode := formattedCode,
      changedLines := countChangedLines (jsSplitLines code) (jsSplitLines formattedCode),
      warnings := [], errors := [] }
  | .error e =>
    { formattedCode := code, changedLines := 0, warnings := [],
      errors := ["포매팅 중 오류 발생: " ++ e] }

end JavaFormatter

namespace JsonFormatter

structure JsonConvention where
  indentationType : IndentationType
  indentSize : Int
  maxLineLength : Int
  insertFinalNewline : Bool
  trimTrailingWhitespace : Bool
  quoteStyle : QuoteStyle
  trailingComma : Bool
  arrayWrapThreshold : Int
  objectWrapThreshold : Int
  autoWrapNested : Bool
  sortKeys : Bool

/-- `typeof v === 'object' && v !== null`. -/
def isObjectLike : JsonVal → Bool
  | .arr _ => true
  | .obj _ => true
  | _ => false

mutual

/-- `JsonFormatter.sortObjectKeys`: object keys sorted recursively.  The
source iterates `Object.keys(obj).sort()` and rebuilds the object; since the
parser deduplicates keys and the stable key sort commutes with the
per-value recursion, this equals recursing first and then sorting the member
list by key. -/
def sortObjectKeys : JsonVal → JsonVal
  | .arr l => .arr (sortObjectKeysList l)
  | .obj ms =>
    .obj ((sortObjectKeysMembers ms).insertionSort (fun a b => strLe a.1 b.1))
  | v => v

def sortObjectKeysList : List JsonVal → List JsonVal
  | [] => []
  | h :: t => sortObjectKeys h :: sortObjectKeysList t

def sortObjectKeysMembers : List (String × JsonVal) → List (String × JsonVal)
  | [] => []
  | kv :: t => (kv.1, sortObjectKeys kv.2) :: sortObjectKeysMembers t

end

/-- Append `','` to the last element (`elements[lastIndex] += ','`). -/
def appendCommaLast : List String → List String
  | [] => []
  | [x] => [x ++ ","]
  | x :: t => x :: appendCommaLast t

/-- Append `','` to every element but the last. -/
def appendCommaInit : List String → List String
  | [] => []
  | [x] => [x]
  | x :: t => (x ++ ",") :: appendCommaInit t

/-- The comma policy shared by `formatArray` and `formatObject`. -/
def applyCommas (conv : JsonConvention) (elements : List String) : List String :=
  if conv.trailingComma ∧ elements ≠ [] then appendCommaLast elements
  else if 1 < elements.length then appendCommaInit elements
  else elements

mutual

/-- `JsonFormatter.formatJson` (the per-call indent string uses `repeat`,
which throws on a negative `indentSize` under space indentation). -/
def formatJson (conv : JsonConvention) (obj : JsonVal) (currentDepth : Nat) :
    Except String String :=
  match (if conv.indentationType = .tab then Except.ok "\t"
         else jsRepeat " " conv.indentSize) with
  | .error e => .error e
  | .ok indentString =>
    let currentIndent := strRepeatN indentString currentDepth
    let nextIndent := strRepeatN indentString (currentDepth + 1)
    match obj with
    | .null => .ok "null"
    | .bool b => .ok (if b then "true" else "false")
    | .num q => .ok (jsNumToString q)
    | .str s => .ok (jsonEscapeString s)
    | .arr l => formatArray conv l currentDepth currentIndent nextIndent
    | .obj ms => formatObject conv ms currentDepth currentIndent nextIndent
termination_by (sizeOf obj, 0)

/-- `JsonFormatter.formatArray` (the multi-line fallthrough recomputes the
formatted items, as the source does). -/
def formatArray (conv : JsonConvention) (arr : List JsonVal) (currentDepth : Nat)
    (currentIndent nextIndent : String) : Except String String :=
  if arr.isEmpty then .ok "[]"
  else
    let shouldWrapArray :=
      (arr.length : Int) > conv.arrayWrapThreshold || arr.any isObjectLike
    let compact : Except String (Option String) :=
      if ¬shouldWrapArray ∧ ¬conv.autoWrapNested then
        match formatJsonList conv arr (currentDepth + 1) with
        | .error e => .error e
        | .ok elements =>
          let result := "[" ++ String.intercalate ", " elements ++ "]"
          .ok (if (result.length : Int) ≤ conv.maxLineLength then some result else none)
      else .ok none
    match compact with
    | .error e => .error e
    | .ok (some result) => .ok result
    | .ok none =>
      match formatJsonList conv arr (currentDepth + 1) with
      | .error e => .error e
      | .ok formatted =>
        let elements := formatted.map (fun item => nextIndent ++ item)
        let elements := applyCommas conv elements
        .ok ("[\n" ++ String.intercalate "\n" elements ++ "\n" ++ currentIndent ++ "]")
termination_by (sizeOf arr, 1)

/-- `JsonFormatter.formatObject` (the key is interpolated into the quotes
verbatim, as in the source's template literal). -/
def formatObject (conv : JsonConvention) (ms : List (String × JsonVal))
    (currentDepth : Nat) (currentIndent nextIndent : String) :
    Except String String :=
  if ms.isEmpty then .ok "\x7b\x7d"
  else
    let shouldWrapObject :=
      (ms.length : Int) > conv.objectWrapThreshold || ms.any (fun kv => isObjectLike kv.2)
    let compact : Except String (Option String) :=
      if ¬shouldWrapObject ∧ ¬conv.autoWrapNested then
        match formatMembersList conv ms (currentDepth + 1) "" with
        | .error e => .error e
        | .ok properties =>
          let result := "\x7b" ++ String.intercalate ", " properties ++ "\x7d"
          .ok (if (result.length : Int) ≤ conv.maxLineLength then some result else none)
      else .ok none
    match compact with
    | .error e => .error e
    | .ok (some result) => .ok result
    | .ok none =>
      match formatMembersList conv ms (currentDepth + 1) nextIndent with
      | .error e => .error e
      | .ok properties =>
        let properties := applyCommas conv properties
        .ok ("\x7b\n" ++ String.intercalate "\n" properties ++ "\n" ++ currentIndent ++ "\x7d")
termination_by (sizeOf ms, 1)

def formatJsonList (conv : JsonConvention) :
    List JsonVal → Nat → Except String (List String)
  | [], _ => .ok []
  | h :: t, depth =>
    match formatJson conv h depth with
    | .error e => .error e
    | .ok s =>
      match formatJsonList conv t depth with
      | .error e => .error e
      | .ok r => .ok (s :: r)
termination_by l _ => (sizeOf l, 0)

def formatMembersList (conv : JsonConvention) :
    List (String × JsonVal) → Nat → String → Except String (List String)
  | [], _, _ => .ok []
  | (k, kv) :: t, depth, prefixStr =>
    match formatJson conv kv depth with
    | .error e => .error e
    | .ok v =>
      match formatMembersList conv t depth prefixStr with
      | .error e => .error e
      | .ok r => .ok ((prefixStr ++ "\"" ++ k ++ "\": " ++ v) :: r)
termination_by l _ _ => (sizeOf l, 0)

end

/-- `JsonFormatter.finalCleanup`. -/
def finalCleanup (conv : JsonConvention) (code : String) : String :=
  let code := if conv.trimTrailingWhitespace then trimLineTrailingWs code else code
  if conv.insertFinalNewline then
    if ¬jsEndsWith code "\n" then code ++ "\n" else code
  else stripTrailingNewlines code

/-- `JsonFormatter.format`: the up-front `JSON.parse` returns the original
text with a decode error; otherwise key sorting, formatting and cleanup run
inside the outer `try`. -/
def format (conv : JsonConvention) (code : String) : FormattingResult :=
  match jsonParseStrict code with
  | none =>
    { formattedCode := code, changedLines := 0, warnings := [],
      errors := ["유효하지 않은 JSON 형식: SyntaxError"] }
  | some parsed =>
    let parsedJson := if conv.sortKeys then sortObjectKeys parsed else parsed
    let warnings :=
      if conv.quoteStyle = .single then
        ["JSON 표준에 따라 double quotes를 사용합니다. single quotes는 지원되지 않습니다."]
      else []
    match (do
      let f ← formatJson conv parsedJson 0
      pure (finalCleanup conv f) : Except String String) with
    | .ok formattedCode =>
      { formattedCode := formattedCode,
        changedLines := countChangedLines (jsSplitLines code) (jsSplitLines formattedCode),
        warnings := warnings, errors := [] }
    | .error e =>
      { formattedCode := code, changedLines := 0, warnings := warnings,
        errors := ["포매팅 중 오류 발생: " ++ e] }

end JsonFormatter

/-! ## Concrete fixtures used by the claim witnesses -/

/-- A representative Java convention (Google-style values). -/
def javaConvDemo : JavaFormatter.JavaConvention :=
  { indentationType := .space, indentSize := 4, maxLineLength := 120,
    insertFinalNewline := false, trimTrailingWhitespace := true,
    braceStyle := .kr, organizeImports := false, separateStaticImports := true,
    separateImportGroups := true, blankLinesBetweenMethods := 1,
    blankLinesBetweenClasses := 2, blankLineAfterAnnotations := false,
    spaceAroundOperators := true, spaceBeforeMethodParens := true,
    spaceBeforeControlParens := true }

/-- The same convention with a 5-column line limit. -/
def javaConvNarrow : JavaFormatter.JavaConvention :=
  { javaConvDemo with maxLineLength := 5 }

/-- The same convention with a negative indent size, on which the whitespace
stage's `' '.repeat` throws. -/
def javaConvNeg : JavaFormatter.JavaConvention :=
  { javaConvDemo with indentSize := -1 }

/-- A representative JSON convention. -/
def jsonConvDemo : JsonFormatter.JsonConvention :=
  { indentationType := .space, indentSize := 2, maxLineLength := 80,
    insertFinalNewline := false, trimTrailingWhitespace := true,
    quoteStyle := .double, trailingComma := false, arrayWrapThreshold := 3,
    objectWrapThreshold := 2, autoWrapNested := false, sortKeys := true }

/-- Alphabetical ascending string sort preserving comments (the spec's
concrete comment-preservation scenario). -/
def sortOptsAlpha : AdvancedSorter.SortingOptions :=
  { sortType := .alphabetical, sortOrder := .asc, dataType := .string,
    preserveComments := true }

/-- Alphabetical ascending string sort dropping comments and blank lines. -/
def sortOptsDrop : AdvancedSorter.SortingOptions :=
  { sortType := .alphabetical, sortOrder := .asc, dataType := .string,
    preserveComments := false, removeEmptyLines := true }

/-- JSON-keyed sort options. -/
def sortOptsJson : AdvancedSorter.SortingOptions :=
  { sortType := .alphabetical, sortOrder := .asc, dataType := .json }

/-- Ascending numeric data-type sort options. -/
def dtOptsNumAsc : DataTypeSorter.DataTypeSortingOptions :=
  { dataType := .number, sortOrder := .asc }

/-- A string holding both a UUID-shaped substring and dot-separated numbers. -/
def uuidVersionDemo : String := "1.2.3 123e4567-e89b-12d3-a456-426614174000"


/-! ## Helper lemmas -/

theorem jsSortInPlace_post_eq_ret {α : Type} (cmp : α → α → ℚ) (l : List α) :
    (jsSortInPlace cmp l).post = (jsSortInPlace cmp l).ret := rfl

theorem jsSortInPlace_ret_perm {α : Type} (cmp : α → α → ℚ) (l : List α) :
    (jsSortInPlace cmp l).ret.Perm l :=
  List.perm_insertionSort (cmpLe cmp) l

theorem ratAdd_eq_add (a b : ℚ) : ratAdd a b = a + b := by
  have ha : ((a.den : ℚ)) ≠ 0 := by positivity
  have hb : ((b.den : ℚ)) ≠ 0 := by positivity
  rw [ratAdd, Rat.mkRat_eq_div]
  push_cast
  conv_rhs => rw [← Rat.num_div_den a, ← Rat.num_div_den b]
  rw [div_add_div _ _ ha hb]
  ring_nf

theorem ratSub_eq_sub (a b : ℚ) : ratSub a b = a - b := by
  have ha : ((a.den : ℚ)) ≠ 0 := by positivity
  have hb : ((b.den : ℚ)) ≠ 0 := by positivity
  rw [ratSub, Rat.mkRat_eq_div]
  push_cast
  conv_rhs => rw [← Rat.num_div_den a, ← Rat.num_div_den b]
  rw [div_sub_div _ _ ha hb]
  ring_nf

theorem ratMul_eq_mul (a b : ℚ) : ratMul a b = a * b := by
  rw [ratMul, Rat.mkRat_eq_div]
  push_cast
  conv_rhs => rw [← Rat.num_div_den a, ← Rat.num_div_den b]
  rw [div_mul_div_comm]

/-! ## Claim theorems -/

/-- C3: the data-type comparators' concrete monotonicity facts: the version
comparison of "1.9.0" against "1.10.0" is negative, the IPv4 comparison of
"10.0.0.1" against "9.255.255.255" is positive, and the byte-converted
(1024-based) file-size comparison of "1.5MB" against "1500KB" is positive. -/
theorem claim_C3_comparator_facts :
    DataTypeSorter.compareVersions (DataTypeSorter.parseVersion "1.9.0")
        (DataTypeSorter.parseVersion "1.10.0") < 0 ∧
      0 < DataTypeSorter.compareIPAddresses (DataTypeSorter.parseIPAddress "10.0.0.1")
        (DataTypeSorter.parseIPAddress "9.255.255.255") ∧
      0 < ratSub (DataTypeSorter.parseFileSize "1.5MB")
        (DataTypeSorter.parseFileSize "1500KB") := by
  refine ⟨by decide, by decide, by decide⟩

/-- C5 (failing input): formatting is not idempotent.  On `"int x = 1;"` with
operator spacing enabled, the first call yields `"int x  =  1;"`, and the
second call, run on the first call's output, widens the spacing again and
reports `changedLines = 1`, not `0` as the spec's idempotence property
requires. -/
theorem claim_C5_idempotence_fails :
    (JavaFormatter.format javaConvDemo "int x = 1;").formattedCode = "int x  =  1;" ∧
      (JavaFormatter.format javaConvDemo
          ((JavaFormatter.format javaConvDemo "int x = 1;").formattedCode)).formattedCode =
        "int x   =   1;" ∧
      (JavaFormatter.format javaConvDemo
          ((JavaFormatter.format javaConvDemo "int x = 1;").formattedCode)).changedLines = 1 := by
  refine ⟨by decide, by decide, by decide⟩

/-- C6 (failing input): the Java pipeline never fills `warnings` — its
line-length check only writes to the console — so a call whose result line
exceeds `maxLineLength` still returns empty `warnings` (the non-fatal part,
`errors = []`, does hold). -/
theorem claim_C6_no_line_length_warnings :
    (∀ conv code, (JavaFormatter.format conv code).warnings = []) ∧
      (JavaFormatter.format javaConvNarrow "int x = 1;").errors = [] ∧
      JavaFormatter.overlongLines javaConvNarrow
        (JavaFormatter.format javaConvNarrow "int x = 1;").formattedCode ≠ [] := by
  refine ⟨?_, by decide, by decide⟩
  intro conv code
  unfold JavaFormatter.format
  split <;> rfl

/-- C9 (counterexample): the per-kind sort functions do mutate their argument:
`sortNumbers` on `["2", "1"]` leaves the caller's array holding `["1", "2"]` —
the in-place `Array.prototype.sort` reorders the receiver. -/
theorem claim_C9_counterexample :
    ¬ (DataTypeSorter.sortNumbers ["2", "1"] dtOptsNumAsc).post = ["2", "1"] := by
  decide

/-- C9 (amended): `sortByDataType` and the per-kind sort functions are
deterministic functions of their arguments, but they sort the caller's array
in place: after the call the receiver holds exactly the returned ordering,
which is a permutation of the input lines. -/
theorem claim_C9_in_place_mutation :
    ∀ (lines : List String) (opts : DataTypeSorter.DataTypeSortingOptions),
      (DataTypeSorter.sortByDataType lines opts).post =
          (DataTypeSorter.sortByDataType lines opts).ret ∧
        (DataTypeSorter.sortByDataType lines opts).ret.Perm lines := by
  intro lines opts
  cases h : opts.dataType <;>
    simp only [DataTypeSorter.sortByDataType, h, DataTypeSorter.sortNumbers,
      DataTypeSorter.sortDates, DataTypeSorter.sortVersions,
      DataTypeSorter.sortIPAddresses, DataTypeSorter.sortURLs,
      DataTypeSorter.sortEmails, DataTypeSorter.sortUUIDs,
      DataTypeSorter.sortHexValues, DataTypeSorter.sortTimes,
      DataTypeSorter.sortFileSizes] <;>
    exact ⟨jsSortInPlace_post_eq_ret _ _, jsSortInPlace_ret_perm _ _⟩

/-- C1: whenever a formatter's `format` call returns a result with a non-empty
`errors` list (a stage threw, or the up-front JSON decode failed), the returned
`formattedCode` is the original input string unchanged — no partial
transformation is applied. -/
theorem claim_C1_errors_imply_unchanged :
    (∀ conv code, (JavaFormatter.format conv code).errors ≠ [] →
        (JavaFormatter.format conv code).formattedCode = code) ∧
      (∀ conv code, (JsonFormatter.format conv code).errors ≠ [] →
        (JsonFormatter.format conv code).formattedCode = code) := by
  constructor
  · intro conv code
    unfold JavaFormatter.format
    split
    · intro h; simp at h
    · intro _; rfl
  · intro conv code
    unfold JsonFormatter.format
    split
    · intro _; rfl
    · split <;> split <;> (dsimp only; split) <;> intro h
      all_goals first | rfl | simp at h

/-- C1 witness: a negative indent size makes the Java whitespace stage's
`repeat` throw, and a non-JSON input makes the JSON decode fail; both calls
report errors and return the input untouched. -/
theorem claim_C1_errors_imply_unchanged_witness :
    ((JavaFormatter.format javaConvNeg "int x = 1;").errors ≠ [] ∧
        (JavaFormatter.format javaConvNeg "int x = 1;").formattedCode = "int x = 1;") ∧
      ((JsonFormatter.format jsonConvDemo "not json").errors ≠ [] ∧
        (JsonFormatter.format jsonConvDemo "not json").formattedCode = "not json") :=
  ⟨⟨by decide, claim_C1_errors_imply_unchanged.1 javaConvNeg "int x = 1;" (by decide)⟩,
    ⟨by decide, claim_C1_errors_imply_unchanged.2 jsonConvDemo "not json" (by decide)⟩⟩

/-- C2: `detectDataType` equals first-match-wins evaluation of the ordered
table UUID → IPv4 → email → URL → version → hex → time → file size → date →
number → none; in particular any string containing a UUID-shaped substring
classifies as `uuid`, never `version` or `number`. -/
theorem claim_C2_detect_order :
    (∀ s, DataTypeSorter.detectDataType s = DataTypeSorter.detectDataTypeSpec s) ∧
      (∀ s, DataTypeSorter.uuidTest s = true →
        DataTypeSorter.detectDataType s = some DataTypeSorter.DataType.uuid) := by
  constructor
  · intro s
    unfold DataTypeSorter.detectDataType DataTypeSorter.detectDataTypeSpec
      DataTypeSorter.detectionTable
    split_ifs with h1 h2 h3 h4 h5 h6 h7 h8 h9 h10 <;> simp_all [List.find?]
  · intro s h
    simp [DataTypeSorter.detectDataType, h]

/-- C2 witness: a string holding both a UUID-shaped substring and
dot-separated numbers matches the UUID test and the version test, and
`detectDataType` classifies it as `uuid`. -/
theorem claim_C2_detect_order_witness :
    DataTypeSorter.uuidTest uuidVersionDemo = true ∧
      DataTypeSorter.versionTest uuidVersionDemo = true ∧
      DataTypeSorter.detectDataType uuidVersionDemo =
        some DataTypeSorter.DataType.uuid :=
  ⟨by decide, by decide, claim_C2_detect_order.2 uuidVersionDemo (by decide)⟩

theorem classifyLines_eq_filters (opts : AdvancedSorter.SortingOptions)
    (ls : List AdvancedSorter.ParsedLine) :
    AdvancedSorter.classifyLines opts ls =
      (ls.filter (fun l => l.isComment && opts.preserveComments),
        ls.filter (fun l =>
          !(l.isComment && opts.preserveComments) &&
            (l.isEmptyLine && !opts.removeEmptyLines)),
        ls.filter (fun l => !l.isComment && !l.isEmptyLine)) := by
  induction ls with
  | nil => rfl
  | cons l t ih =>
    cases hc : l.isComment <;> cases hp : opts.preserveComments <;>
      cases he : l.isEmptyLine <;> cases hr : opts.removeEmptyLines <;>
      simp [AdvancedSorter.classifyLines, ih, List.filter_cons, hc, hp, he, hr]

theorem isCommentLine_of_empty (s : String) (h : s.data = []) :
    AdvancedSorter.isCommentLine s = false := by
  unfold AdvancedSorter.isCommentLine
  rw [h]
  rfl

theorem parseOneLine_comment_not_empty (opts : AdvancedSorter.SortingOptions)
    (line : String) (h : (AdvancedSorter.parseOneLine opts line).isComment = true) :
    (AdvancedSorter.parseOneLine opts line).isEmptyLine = false := by
  simp only [AdvancedSorter.parseOneLine] at h ⊢
  by_cases hz : (jsTrim line).length = 0
  · have hd : (jsTrim line).data = [] := by
      have : (jsTrim line).data.length = 0 := hz
      exact List.length_eq_zero.mp this
    rw [isCommentLine_of_empty _ hd] at h
    cases h
  · simp [hz]

/-- C4: the generic line sorter reassembles exactly: the comment lines first
(when preservation is on), in original order and untouched by the sort; then
the content lines in sorted order; then the blank lines (when not dropped), in
original order.  Concretely, the comment-preserving alphabetical ascending
sort of `"// c" / "banana" / "apple"` yields `"// c" / "apple" / "banana"`. -/
theorem claim_C4_reassembly_order :
    (∀ (parsedLines : List AdvancedSorter.ParsedLine)
        (opts : AdvancedSorter.SortingOptions),
        AdvancedSorter.sortLines parsedLines opts =
          (if opts.preserveComments then
              parsedLines.filter (fun l => l.isComment && opts.preserveComments)
            else []) ++
            jsSort (AdvancedSorter.lineCmp opts)
              (parsedLines.filter (fun l => !l.isComment && !l.isEmptyLine)) ++
            (if ¬opts.removeEmptyLines then
              parsedLines.filter (fun l =>
                !(l.isComment && opts.preserveComments) &&
                  (l.isEmptyLine && !opts.removeEmptyLines))
            else [])) ∧
      AdvancedSorter.formatOutput
          (AdvancedSorter.sortLines
            (AdvancedSorter.parseLines "// c\nbanana\napple" sortOptsAlpha)
            sortOptsAlpha) true =
        "// c\napple\nbanana" := by
  constructor
  · intro parsedLines opts
    unfold AdvancedSorter.sortLines
    rw [classifyLines_eq_filters]
  · decide

/-- C10: with `preserveComments` off, no comment line survives `sortLines`
(comments land in none of the three reassembly groups); with
`removeEmptyLines` on, no blank line survives. -/
theorem claim_C10_dropped_lines :
    (∀ text opts, opts.preserveComments = false →
        (AdvancedSorter.sortLines (AdvancedSorter.parseLines text opts) opts).all
          (fun l => !l.isComment) = true) ∧
      (∀ text opts, opts.removeEmptyLines = true →
        (AdvancedSorter.sortLines (AdvancedSorter.parseLines text opts) opts).all
          (fun l => !l.isEmptyLine) = true) := by
  constructor
  · intro text opts hp
    unfold AdvancedSorter.sortLines
    rw [classifyLines_eq_filters]
    simp only [hp, if_neg Bool.false_ne_true, List.all_eq_true, List.mem_append]
    intro l hl
    rcases hl with hl | hl
    · rcases hl with hl | hl
      · simp at hl
      · have hmem := (List.perm_insertionSort
          (cmpLe (AdvancedSorter.lineCmp opts)) _).mem_iff.mp hl
        have := List.of_mem_filter hmem
        simp_all
    · split at hl
      · have hpred := List.of_mem_filter hl
        have hmem := List.mem_of_mem_filter hl
        have he : l.isEmptyLine = true := by simp_all
        rcases List.mem_map.mp hmem with ⟨line, _, rfl⟩
        by_cases hcomm : (AdvancedSorter.parseOneLine opts line).isComment = true
        · have := parseOneLine_comment_not_empty opts line hcomm
          simp_all
        · simp_all
      · simp at hl
  · intro text opts hr
    unfold AdvancedSorter.sortLines
    rw [classifyLines_eq_filters]
    simp only [hr, List.all_eq_true, List.mem_append]
    intro l hl
    rcases hl with hl | hl
    · rcases hl with hl | hl
      · split at hl
        · have hpred := List.of_mem_filter hl
          have hmem := List.mem_of_mem_filter hl
          have hc : l.isComment = true := by simp_all
          rcases List.mem_map.mp hmem with ⟨line, _, rfl⟩
          have := parseOneLine_comment_not_empty opts line hc
          simp_all
        · simp at hl
      · have hmem := (List.perm_insertionSort
          (cmpLe (AdvancedSorter.lineCmp opts)) _).mem_iff.mp hl
        have := List.of_mem_filter hmem
        simp_all
    · simp at hl

/-- C10 witness: on an input holding a comment line and a blank line, the
drop-everything options leave neither in the output. -/
theorem claim_C10_dropped_lines_witness :
    (AdvancedSorter.parseLines "// c\nbanana\n\napple" sortOptsDrop).any
        (fun l => l.isComment) = true ∧
      (AdvancedSorter.parseLines "// c\nbanana\n\napple" sortOptsDrop).any
        (fun l => l.isEmptyLine) = true ∧
      (AdvancedSorter.sortLines
          (AdvancedSorter.parseLines "// c\nbanana\n\napple" sortOptsDrop)
          sortOptsDrop).all (fun l => !l.isComment) = true ∧
      (AdvancedSorter.sortLines
          (AdvancedSorter.parseLines "// c\nbanana\n\napple" sortOptsDrop)
          sortOptsDrop).all (fun l => !l.isEmptyLine) = true :=
  ⟨by decide, by decide,
    claim_C10_dropped_lines.1 "// c\nbanana\n\napple" sortOptsDrop (by decide),
    claim_C10_dropped_lines.2 "// c\nbanana\n\napple" sortOptsDrop (by decide)⟩

/-- C7: per-line fault isolation in the generic sorter: lines are parsed by a
total function mapped independently over the split input, so no line can abort
the others; a failed date parse falls back to epoch zero, a non-numeric number
parse falls back to 0, a doubly-failed JSON decode falls back to the raw text
as a string, and when no structured type is detected the sort key is the raw
text itself. -/
theorem claim_C7_per_line_fallbacks :
    (∀ text opts, AdvancedSorter.parseLines text opts =
        (jsSplitLines text).map (AdvancedSorter.parseOneLine opts)) ∧
      (∀ s, (jsNewDate s).isSome = false → AdvancedSorter.parseDate s = 0) ∧
      (∀ s, (jsParseFloatClean
            (s.data.filter (fun c => jsDigit c || c = '.' || c = '-'))).isSome =
          false → AdvancedSorter.parseNumber s = 0) ∧
      (∀ s, (jsonParseStrict s).isSome = false →
        (jsonParseStrict
            (String.mk (s.data.map (fun c =>
              if c = '\'' then '"' else c)))).isSome = false →
        AdvancedSorter.parseJSON s = .str s) ∧
      (∀ s, (jsStartsWith s "\x7b" && jsEndsWith s "\x7d") = false →
        (jsStartsWith s "[" && jsEndsWith s "]") = false →
        DataTypeSorter.numberFull (jsTrim s).data = false →
        AdvancedSorter.isDateString s = false →
        AdvancedSorter.detectDataType s = .strD s) := by
  refine ⟨fun _ _ => rfl, ?_, ?_, ?_, ?_⟩
  · intro s h
    unfold AdvancedSorter.parseDate
    cases hj : jsNewDate s with
    | none => rfl
    | some v => rw [hj] at h; simp at h
  · intro s h
    unfold AdvancedSorter.parseNumber
    cases hj : jsParseFloatClean
        (s.data.filter (fun c => jsDigit c || c = '.' || c = '-')) with
    | none => simp only [hj]
    | some v => rw [hj] at h; simp at h
  · intro s h1 h2
    unfold AdvancedSorter.parseJSON AdvancedSorter.parseJavaScriptObject
    cases hj1 : jsonParseStrict s with
    | some v => rw [hj1] at h1; simp at h1
    | none =>
      cases hj2 : jsonParseStrict
          (String.mk (s.data.map (fun c => if c = '\'' then '"' else c))) with
      | some v => rw [hj2] at h2; simp at h2
      | none => simp only [hj2]
  · intro s h1 h2 h3 h4
    unfold AdvancedSorter.detectDataType
    simp [h1, h2, h3, h4]

/-- C7 witness: on the unparseable line "hello", every fallback fires. -/
theorem claim_C7_per_line_fallbacks_witness :
    AdvancedSorter.parseDate "hello" = 0 ∧
      AdvancedSorter.parseNumber "hello" = 0 ∧
      AdvancedSorter.parseJSON "hello" = .str "hello" ∧
      AdvancedSorter.detectDataType "hello" = .strD "hello" :=
  ⟨claim_C7_per_line_fallbacks.2.1 "hello" (by decide),
    claim_C7_per_line_fallbacks.2.2.1 "hello" (by decide),
    claim_C7_per_line_fallbacks.2.2.2.1 "hello" (by decide) (by decide),
    claim_C7_per_line_fallbacks.2.2.2.2 "hello" (by decide) (by decide)
      (by decide) (by decide)⟩

